import Mathlib

set_option maxRecDepth 100000

/-!
Shallow embedding of `display-controller.py`: data model (`Offset`, `Display`,
`DisplayList`, `DisplayMode`), the xrandr command builder
(`DisplayController.configure`), the stored-configuration matcher from `main`,
the JSON configuration store (`JsonUtils`), the `rotate` helper of the setup
wizard, and the xrandr status-output parser (`DisplayParser.parse` together
with the single-line grammar used for connected-display lines).
-/

/-- Mode enum `DisplayMode` from the source. -/
inductive DisplayMode where
  | CLONE
  | INTERNAL_ONLY
  | INTERNAL_EXTEND
  | EXTERNAL_ONLY
deriving DecidableEq

/-- Record `Offset`: sign direction (`"+"` or `"-"` as produced by the parser)
and the pixel offset digits, both kept as strings exactly as in the source. -/
structure Offset where
  direction : String
  offset : String
deriving DecidableEq

/-- Record `Display`. `resolution`, `x_offset`, `y_offset` are `None` for a
connected-but-inactive display; the constructor maps an absent (`None`) `edid`
to the empty string, so `edid` is always a string here. -/
structure Display where
  name : String
  resolution : Option String
  x_offset : Option Offset
  y_offset : Option Offset
  edid : String
deriving DecidableEq

/-- Record `DisplayList`: an ordered list of displays. -/
structure DisplayList where
  displays : List Display
deriving DecidableEq

/-- Source helper `rotate(l, n) = l[-n:] + l[:-n]`.  For every `n : Nat` the
two Python slices equal `l.drop (l.length - n)` and `l.take (l.length - n)`
(truncating subtraction matches Python slice clamping, and for `n = 0` both
sides are the whole list resp. the empty list up to the order of the append,
which yields the same list). -/
def rotate (l : List α) (n : Nat) : List α :=
  l.drop (l.length - n) ++ l.take (l.length - n)

/-- Python read `displays[i]` where `i` may be `-1` (then it denotes the last
element).  In `DisplayController.configure` the index is always in range; an
out-of-range read (Python `IndexError`, unreachable there) yields `""`. -/
def pyName (displays : List Display) (i : Int) : String :=
  if 0 ≤ i then ((displays.get? i.toNat).map Display.name).getD ""
  else ((displays.get? (displays.length - (-i).toNat)).map Display.name).getD ""

/-- Loop body of `DisplayController.configure` for the display at position
`idx`: the piece appended to the command string for this display.  Mirrors the
source exactly, including the two separate `if` chains (the `CLONE` chain and
the `INTERNAL_ONLY`/`EXTERNAL_ONLY`/`INTERNAL_EXTEND` chain) and the bare
`if idx == 1` (not `elif`) inside the `EXTERNAL_ONLY` arm. -/
def directiveFor (displays : List Display) (display_mode : DisplayMode)
    (extend_all : Bool) (direction : String) (idx : Nat) (display : Display) : String :=
  let command := " --output " ++ display.name
  let command :=
    if display_mode = DisplayMode.CLONE then
      if idx = 0 then command ++ " --primary --auto"
      else command ++ " --auto --same-as " ++ pyName displays ((idx : Int) - 1)
    else command
  if display_mode = DisplayMode.INTERNAL_ONLY then
    if idx = 0 then command ++ " --primary --auto" else command ++ " --off"
  else if display_mode = DisplayMode.EXTERNAL_ONLY then
    let command := if idx = 0 then command ++ " --off" else command
    if idx = 1 then command ++ " --primary --auto"
    else if extend_all then
      command ++ " --auto --" ++ direction ++ "-of " ++ pyName displays ((idx : Int) - 1)
    else command ++ " --off"
  else if display_mode = DisplayMode.INTERNAL_EXTEND then
    if idx = 0 then command ++ " --primary --auto"
    else if idx = 1 then
      command ++ " --auto --" ++ direction ++ "-of " ++ pyName displays ((idx : Int) - 1)
    else if extend_all then
      command ++ " --auto --" ++ direction ++ "-of " ++ pyName displays ((idx : Int) - 1)
    else command ++ " --off"
  else command

/-- The `for idx, display in enumerate(displays)` loop of `configure`,
emitting one directive per display starting at position `idx0`. -/
def directivesFrom (displays : List Display) (display_mode : DisplayMode)
    (extend_all : Bool) (direction : String) : Nat → List Display → List String
  | _, [] => []
  | idx, d :: rest =>
    directiveFor displays display_mode extend_all direction idx d ::
      directivesFrom displays display_mode extend_all direction (idx + 1) rest

/-- The per-display directives of `DisplayController.configure`, in input
order. -/
def configureDirectives (displays : List Display) (display_mode : DisplayMode)
    (extend_all : Bool) (direction : String) : List String :=
  directivesFrom displays display_mode extend_all direction 0 displays

/-- The full command string built by `DisplayController.configure`. -/
def configureCommand (displays : List Display) (display_mode : DisplayMode)
    (extend_all : Bool) (direction : String) : String :=
  "xrandr" ++ String.join (configureDirectives displays display_mode extend_all direction)

/-- Source helper `get_edids` (the `isinstance(display, Dict)` branch is dead:
both call sites pass lists of `Display` objects). -/
def get_edids (displays : List Display) : List String :=
  displays.map Display.edid

/-- Name remapping applied in `main` when the stored configuration is used:
each stored display's name is replaced by the name of the first live display
with the same EDID, keeping the stored name when no live display matches
(`next(iter([d.name for d in current if d.edid == display.edid]), display.name)`). -/
def matchedDisplays (conf : DisplayList) (current_displays : DisplayList) : List Display :=
  conf.displays.map fun display =>
    { display with
      name := (((current_displays.displays.filter fun d => d.edid == display.edid).map
        Display.name).head?).getD display.name }

/-- The display-selection logic of `main` (lines 369-384): use the live list
unless a stored configuration exists and the live EDID set is a subset of the
stored EDID set (`set(current_edids).issubset(config_edids)`), in which case
the stored order is used with names remapped from the live scan. -/
def chooseDisplays (configuration_list : Option DisplayList)
    (current_displays : DisplayList) : List Display :=
  match configuration_list with
  | none => current_displays.displays
  | some conf =>
    if (get_edids current_displays.displays).all
        (fun e => (get_edids conf.displays).contains e) then
      matchedDisplays conf current_displays
    else current_displays.displays

/-- JSON values, as produced by `json.dump`/`json.load` for this program's
configuration file (only `null`, strings, arrays and objects occur). -/
inductive Json where
  | null
  | str (s : String)
  | arr (elems : List Json)
  | obj (fields : List (String × Json))

/-- Python `json_data[k]` on a dict: the value, or a `KeyError`. -/
def getKey (fields : List (String × Json)) (k : String) : Except String Json :=
  match fields.lookup k with
  | some v => Except.ok v
  | none => Except.error "KeyError"

/-- Serialization of an `Offset` via its `__dict__` (insertion order:
`direction`, `offset`). -/
def Offset.toJson (o : Offset) : Json :=
  Json.obj [("direction", Json.str o.direction), ("offset", Json.str o.offset)]

/-- `json.dump` of an optional component (`None` becomes `null`). -/
def optToJson (f : α → Json) : Option α → Json
  | none => Json.null
  | some a => f a

/-- Serialization of a `Display` via its `__dict__` (insertion order of
`Display.__init__`: `name`, `resolution`, `x_offset`, `y_offset`, `edid`). -/
def Display.toJson (d : Display) : Json :=
  Json.obj [("name", Json.str d.name),
            ("resolution", optToJson Json.str d.resolution),
            ("x_offset", optToJson Offset.toJson d.x_offset),
            ("y_offset", optToJson Offset.toJson d.y_offset),
            ("edid", Json.str d.edid)]

/-- `JsonUtils.to_json`: the JSON value written to the configuration file
(`json.dump(displays.__dict__, ..., default=lambda o: o.__dict__)`). -/
def JsonUtils.to_json (displays : DisplayList) : Json :=
  Json.obj [("displays", Json.arr (displays.displays.map Display.toJson))]

/-- `Offset.from_json(json_data) = cls(**json_data)`: succeeds exactly on a
two-field object `direction`/`offset`; anything else (in particular `null`,
i.e. Python `None`) raises a `TypeError`. -/
def Offset.fromJson : Json → Except String Offset
  | Json.obj [("direction", Json.str d), ("offset", Json.str o)] => Except.ok ⟨d, o⟩
  | _ => Except.error "TypeError"

/-- `Display.from_json`: reads `x_offset`, `y_offset`, `name`, `resolution`,
`edid` in source order; offsets go through `Offset.from_json`, a `null`
resolution becomes `None`, and a `null` edid becomes `''` (the constructor
maps `None` to `''`).  Values of other JSON types than the ones this program
ever serializes are rejected. -/
def Display.fromJson (j : Json) : Except String Display :=
  match j with
  | Json.obj fields => do
    let xj ← getKey fields "x_offset"
    let x_offset ← Offset.fromJson xj
    let yj ← getKey fields "y_offset"
    let y_offset ← Offset.fromJson yj
    let nj ← getKey fields "name"
    let name ← match nj with
      | Json.str s => Except.ok s
      | _ => Except.error "TypeError"
    let rj ← getKey fields "resolution"
    let resolution ← match rj with
      | Json.str s => Except.ok (some s)
      | Json.null => Except.ok none
      | _ => Except.error "TypeError"
    let ej ← getKey fields "edid"
    let edid ← match ej with
      | Json.str s => Except.ok s
      | Json.null => Except.ok ""
      | _ => Except.error "TypeError"
    Except.ok ⟨name, resolution, some x_offset, some y_offset, edid⟩
  | _ => Except.error "TypeError"

/-- Python `list(map(f, xs))` for a fallible `f`: stops at the first raised
exception. -/
def mapExcept (f : α → Except ε β) : List α → Except ε (List β)
  | [] => Except.ok []
  | a :: t =>
    match f a with
    | Except.error e => Except.error e
    | Except.ok b => (mapExcept f t).map (b :: ·)

/-- `DisplayList.from_json`: maps `Display.from_json` over `json_data["displays"]`. -/
def DisplayList.fromJson : Json → Except String DisplayList
  | Json.obj fields =>
    match getKey fields "displays" with
    | Except.error e => Except.error e
    | Except.ok (Json.arr elems) => (mapExcept Display.fromJson elems).map DisplayList.mk
    | Except.ok _ => Except.error "TypeError"
  | _ => Except.error "TypeError"

/-- `JsonUtils.from_json`: the configuration file is modelled as `none`
(absent: `path.isfile` is false, the function returns `None`) or `some` of its
parsed JSON content. -/
def JsonUtils.from_json (file : Option Json) : Except String (Option DisplayList) :=
  match file with
  | none => Except.ok none
  | some j => (DisplayList.fromJson j).map some

/-- Characters matched by Python's `\s` (and removed by `str.strip()`). -/
def isPyWs (c : Char) : Bool :=
  c == ' ' || c == '\t' || c == '\n' || c == '\r' || c == '\x0B' || c == '\x0C'

/-- Python `line.strip()`. -/
def pyStrip (s : String) : String :=
  String.mk (((s.data.dropWhile isPyWs).reverse.dropWhile isPyWs).reverse)

/-- Index of the first occurrence of `sub` in `s` (Python `s.index(sub)`;
`none` when absent, where Python `in` is false / `index` raises). -/
def indexOfSub (sub : List Char) : List Char → Option Nat
  | [] => if sub.isEmpty then some 0 else none
  | c :: t => if sub.isPrefixOf (c :: t) then some 0 else (indexOfSub sub t).map (· + 1)

/-- Python `sub in s` on strings. -/
def containsSub (sub s : String) : Bool :=
  (indexOfSub sub.data s.data).isSome

/-- The tab-counting loop of `DisplayParser.parse` (`for c in line: if c == "\t":
indentation += 1 else: break`). -/
def leadingTabs (cs : List Char) : Nat :=
  (cs.takeWhile (fun c => c == '\t')).length

/-- Characters of the Lark `TEXT` terminal `/[-a-zA-Z0-9]+/`. -/
def isTextChar (c : Char) : Bool :=
  c == '-' || c.isAlpha || c.isDigit

/-- Skipping of the ignored `WS` terminal (`/\s+/`). -/
def skipWs (cs : List Char) : List Char :=
  cs.dropWhile isPyWs

/-- The keywords allowed inside the `orientation` parenthesis of the grammar. -/
def orientWord (w : List Char) : Bool :=
  w == "normal".data || w == "left".data || w == "inverted".data || w == "right".data ||
    w == "x".data || w == "axis".data || w == "y".data

/-- Grammar rule `offset: OFFSET_DIRECTION offset_value` (a `+`/`-` sign
followed by a `NUMBER`); returns the `Offset` exactly as
`DisplayParser.parse_offset` builds it from the two token values. -/
def parseOffsetTok (cs : List Char) : Option (Offset × List Char) :=
  match skipWs cs with
  | c :: rest =>
    if c == '+' || c == '-' then
      let rest1 := skipWs rest
      let n := rest1.takeWhile Char.isDigit
      let r := rest1.dropWhile Char.isDigit
      if n.isEmpty then none else some (⟨String.mk [c], String.mk n⟩, r)
    else none
  | [] => none

/-- Grammar rule `resolution_offset: pixels "x" pixels screen_offset`, optional
in `start`; on success the resolution string is `pixels[0] + "x" + pixels[1]`
exactly as `DisplayParser.parse_display` assembles it.  When the next token is
not a `NUMBER` the optional rule is skipped and the input is left untouched. -/
def parseRes (cs : List Char) : Option (Option (String × Offset × Offset) × List Char) :=
  match (skipWs cs).head? with
  | none => some (none, cs)
  | some c =>
    if c.isDigit then
      let cs1 := skipWs cs
      let w := cs1.takeWhile Char.isDigit
      let r1s := skipWs (cs1.dropWhile Char.isDigit)
      if r1s.head? = some 'x' then
        let r2s := skipWs r1s.tail
        let h := r2s.takeWhile Char.isDigit
        let r3 := r2s.dropWhile Char.isDigit
        if h.isEmpty then none
        else
          match parseOffsetTok r3 with
          | none => none
          | some (o1, r4) =>
            match parseOffsetTok r4 with
            | none => none
            | some (o2, r5) => some (some (String.mk w ++ "x" ++ String.mk h, o1, o2), r5)
      else none
    else some (none, cs)

/-- Grammar rule `orientation: "(" (...)+ ")"` after the opening parenthesis:
one or more allowed keywords, whitespace separated, up to the closing
parenthesis.  `fuel` bounds the recursion; callers pass at least the length of
the remaining input plus one, which always suffices. -/
def parseOrientWords (fuel : Nat) (cs : List Char) (seen : Bool) : Option (List Char) :=
  match fuel with
  | 0 => none
  | fuel + 1 =>
    let cs1 := skipWs cs
    if cs1.head? = some ')' then
      if seen then some cs1.tail else none
    else
      let w := cs1.takeWhile isTextChar
      let rest := cs1.dropWhile isTextChar
      if w.isEmpty then none
      else if orientWord w then parseOrientWords fuel rest true
      else none

/-- Grammar rule `screen_size: length "x" length` with `length: NUMBER "mm"`,
optional in `start` (skipped at end of input). -/
def parseSize (cs : List Char) : Option (List Char) :=
  match (skipWs cs).head? with
  | none => some []
  | some c =>
    if c.isDigit then
      let cs1 := skipWs cs
      let r1 := skipWs (cs1.dropWhile Char.isDigit)
      if ("mm".data).isPrefixOf r1 then
        let r2 := skipWs (r1.drop 2)
        if r2.head? = some 'x' then
          let r3s := skipWs r2.tail
          let n2 := r3s.takeWhile Char.isDigit
          let r4 := skipWs (r3s.dropWhile Char.isDigit)
          if n2.isEmpty then none
          else if ("mm".data).isPrefixOf r4 then some (r4.drop 2)
          else none
        else none
      else none
    else none

/-- The single-line grammar `start: output "connected" "primary"?
resolution_offset? orientation screen_size?` applied to one connected-display
line, combined with the field extraction of `DisplayParser.parse_display` and
`parse_offset`: the resulting `Display` carries the output name, the optional
`WxH` resolution string and the two offsets; `edid` starts out empty.  `none`
models a Lark parse error on a line outside the grammar's language. -/
def parseLineChars (cs0 : List Char) : Option Display :=
  let cs := skipWs cs0
  let name := cs.takeWhile isTextChar
  let csa := cs.dropWhile isTextChar
  if name.isEmpty then none
  else
    let csb := skipWs csa
    let kw := csb.takeWhile isTextChar
    let csc := csb.dropWhile isTextChar
    if kw = "connected".data then
      let csd := skipWs csc
      let p := csd.takeWhile isTextChar
      let cse := if p = "primary".data then csd.dropWhile isTextChar else csd
      match parseRes cse with
      | none => none
      | some (resOff, csf) =>
        let csfs := skipWs csf
        if csfs.head? = some '(' then
          match parseOrientWords (csfs.tail.length + 1) csfs.tail false with
          | none => none
          | some csh =>
            match parseSize csh with
            | none => none
            | some csi =>
              if (skipWs csi).isEmpty then
                match resOff with
                | none => some ⟨String.mk name, none, none, none, ""⟩
                | some (res, o1, o2) => some ⟨String.mk name, some res, some o1, some o2, ""⟩
              else none
        else none
    else none

/-- `parser.parse(line)` followed by `parse_display` on a line of the status
output. -/
def parseDisplayLine (line : String) : Option Display :=
  parseLineChars line.data

/-- Mutable loop state of `DisplayParser.parse`. -/
structure ParseState where
  parsed_displays : List Display
  edid_buffer : List String
  collect_lines : Bool
  attribute_indentation : Nat
  last_connected : Bool
deriving DecidableEq

/-- Initial state of the parse loop. -/
def initState : ParseState :=
  ⟨[], [], false, 0, false⟩

/-- Python `parsed_displays[len(parsed_displays) - 1].edid = e` (an in-place
update of the last element; `none` models the `IndexError` on an empty list,
unreachable from the initial state). -/
def setLastEdid : List Display → String → Option (List Display)
  | [], _ => none
  | [d], e => some [{ d with edid := e }]
  | d :: d2 :: ds, e => (setLastEdid (d2 :: ds) e).map (d :: ·)

/-- One iteration of the line loop of `DisplayParser.parse`.  Branches in
source order: disconnected marker, connected marker (line parsed by the
grammar), EDID marker after a connected display, EDID collection, ignore.
`Except.error` models the two possible exceptions (Lark parse error,
`IndexError`). -/
def parseStep (s : ParseState) (line : String) : Except String ParseState :=
  if containsSub "disconnected" line then
    Except.ok { s with last_connected := false }
  else if containsSub "connected" line then
    match parseDisplayLine line with
    | none => Except.error "ParseError"
    | some d =>
      Except.ok { s with parsed_displays := s.parsed_displays ++ [d], last_connected := true }
  else if s.last_connected && containsSub "EDID" line then
    Except.ok { s with edid_buffer := [],
                       attribute_indentation := (indexOfSub "EDID".data line.data).getD 0,
                       collect_lines := true }
  else if s.collect_lines then
    let indentation :=
      if line.data.head? = some ' ' then s.attribute_indentation else leadingTabs line.data
    if s.attribute_indentation = indentation then
      match setLastEdid s.parsed_displays (String.join s.edid_buffer) with
      | none => Except.error "IndexError"
      | some ds => Except.ok { s with collect_lines := false, parsed_displays := ds }
    else
      Except.ok { s with edid_buffer := s.edid_buffer ++ [pyStrip line] }
  else Except.ok s

/-- The line loop of `DisplayParser.parse` run from a given state. -/
def runParseFrom (s : ParseState) (lines : List String) : Except String ParseState :=
  lines.foldlM parseStep s

/-- `DisplayParser.parse` applied to the raw status text (after
`output.split("\n")`). -/
def parseStatus (output : String) : Except String DisplayList :=
  (runParseFrom initState (output.splitOn "\n")).map fun s =>
    DisplayList.mk s.parsed_displays

/-- Words joined by single spaces (used to render the `orientation` block). -/
def sepSpace : List String → String
  | [] => ""
  | [w] => w
  | w :: ws => w ++ " " ++ sepSpace ws

/-- A connected-display line of the expected single-line grammar, rendered
from its components in the conventional xrandr layout
`<name> connected [primary] [<W>x<H><sx><X><sy><Y>] (<orientation words>)
[<W>mm x <H>mm]`. -/
def renderConnectedLine (name : String) (primary : Bool)
    (resOff : Option (String × String × Offset × Offset)) (orient : List String)
    (size : Option (String × String)) : String :=
  name ++ " connected" ++ (if primary then " primary" else "") ++
    (match resOff with
     | none => ""
     | some (w, h, o1, o2) =>
       " " ++ w ++ "x" ++ h ++ o1.direction ++ o1.offset ++ o2.direction ++ o2.offset) ++
    " (" ++ sepSpace orient ++ ")" ++
    (match size with
     | none => ""
     | some (a, b) => " " ++ a ++ "mm x " ++ b ++ "mm")

/-- Character form of the rendered optional `screen_size` suffix. -/
def sizeChars : Option (String × String) → List Char
  | none => []
  | some (a, b) => ' ' :: (a.data ++ 'm' :: 'm' :: ' ' :: 'x' :: ' ' :: (b.data ++ ['m', 'm']))

/-! ### Helper lemmas -/

theorem directivesFrom_get? (displays : List Display) (m : DisplayMode) (ea : Bool)
    (dir : String) :
    ∀ (l : List Display) (i j : Nat),
      (directivesFrom displays m ea dir i l).get? j =
        (l.get? j).map (fun d => directiveFor displays m ea dir (i + j) d) := by
  intro l
  induction l with
  | nil => intro i j; simp [directivesFrom]
  | cons d t ih =>
    intro i j
    cases j with
    | zero => simp [directivesFrom]
    | succ j =>
      have h := ih (i + 1) j
      have harith : i + 1 + j = i + (j + 1) := by omega
      simp only [directivesFrom, List.get?_cons_succ, h, harith]

theorem configureDirectives_get? (displays : List Display) (m : DisplayMode) (ea : Bool)
    (dir : String) (j : Nat) :
    (configureDirectives displays m ea dir).get? j =
      (displays.get? j).map (fun d => directiveFor displays m ea dir j d) := by
  have h := directivesFrom_get? displays m ea dir displays 0 j
  simpa [configureDirectives] using h

theorem pyName_of_get? (displays : List Display) (idx : Nat) (prev : Display)
    (h1 : 1 ≤ idx) (h2 : displays.get? (idx - 1) = some prev) :
    pyName displays ((idx : Int) - 1) = prev.name := by
  have h0 : (0 : Int) ≤ (idx : Int) - 1 := by omega
  have ht : ((idx : Int) - 1).toNat = idx - 1 := by omega
  have h2' : displays[idx - 1]? = some prev := by
    rw [← List.get?_eq_getElem?]; exact h2
  simp [pyName, h0, ht, h2']

theorem rotate_one_eq (l : List α) : rotate l 1 = l.rotate (l.length - 1) := by
  unfold rotate
  rw [List.rotate_eq_drop_append_take (Nat.sub_le _ _)]

theorem iterate_rotate_one (l : List α) (k : Nat) :
    (fun x => rotate x 1)^[k] l = l.rotate ((l.length - 1) * k) := by
  induction k with
  | zero => simp
  | succ k ih =>
    rw [Function.iterate_succ_apply', ih]
    show rotate (l.rotate ((l.length - 1) * k)) 1 = _
    rw [rotate_one_eq, List.length_rotate, List.rotate_rotate, Nat.mul_succ]

/-! ### Claim theorems -/

/-- Claim C1 (code-bug demonstration).  The claim says that in EXTERNAL_ONLY
mode index 0 always receives a plain powered-off directive.  Because the
source uses `if idx == 1` instead of `elif idx == 1` after `if idx == 0`
(line 276), the `extend_all`/`else` arm of that second chain also fires at
index 0: with `extend_all` the internal display's directive additionally gets
`--auto --right-of <last display>` (so it is not powered off at all), and
without `extend_all` it gets a doubled `--off --off`. -/
theorem external_only_index0_extra_tokens :
    configureCommand [⟨"eDP-1", none, none, none, ""⟩, ⟨"HDMI-1", none, none, none, ""⟩]
        DisplayMode.EXTERNAL_ONLY true "right" =
      "xrandr --output eDP-1 --off --auto --right-of HDMI-1 --output HDMI-1 --primary --auto" ∧
    configureCommand [⟨"eDP-1", none, none, none, ""⟩, ⟨"HDMI-1", none, none, none, ""⟩]
        DisplayMode.EXTERNAL_ONLY false "right" =
      "xrandr --output eDP-1 --off --off --output HDMI-1 --primary --auto" ∧
    (configureDirectives [⟨"eDP-1", none, none, none, ""⟩, ⟨"HDMI-1", none, none, none, ""⟩]
        DisplayMode.EXTERNAL_ONLY true "right").get? 0 ≠
      some " --output eDP-1 --off" := by
  refine ⟨by decide, by decide, by decide⟩

/-- Claim C2 (code-bug demonstration).  Directive count and order do match the
input list, but in EXTERNAL_ONLY mode with `extend_all` the directive for
index 0 positions the internal display relative to `displays[-1]`, the LAST
display (here the index-2 display `DP-3`), so a positional dependency points
to a later index, against the claimed guarantee.  Root cause is the missing
`elif` at source line 276. -/
theorem external_only_references_later_display :
    configureDirectives
        [⟨"eDP-1", none, none, none, ""⟩, ⟨"HDMI-1", none, none, none, ""⟩,
         ⟨"DP-3", none, none, none, ""⟩] DisplayMode.EXTERNAL_ONLY true "right" =
      [" --output eDP-1 --off --auto --right-of DP-3",
       " --output HDMI-1 --primary --auto",
       " --output DP-3 --auto --right-of HDMI-1"] ∧
    (([⟨"eDP-1", none, none, none, ""⟩, ⟨"HDMI-1", none, none, none, ""⟩,
       ⟨"DP-3", none, none, none, ""⟩] : List Display).get? 2).map Display.name =
      some "DP-3" := by
  refine ⟨by decide, by decide⟩

/-- Claim C6: a line containing the disconnected marker never produces a
`Display` record, whatever the accumulated parser state: the loop iteration
returns the same state with only `last_connected` reset to `False`. -/
theorem disconnected_line_only_resets_flag (s : ParseState) (line : String)
    (h : containsSub "disconnected" line = true) :
    parseStep s line = Except.ok { s with last_connected := false } ∧
    ∀ s', parseStep s line = Except.ok s' → s'.parsed_displays = s.parsed_displays := by
  have h1 : parseStep s line = Except.ok { s with last_connected := false } := by
    simp [parseStep, h]
  refine ⟨h1, ?_⟩
  intro s' hs'
  rw [h1] at hs'
  injection hs' with h2
  rw [← h2]

/-- Witness for C6 at a concrete disconnected-display line and a state that
is mid-EDID-collection with one parsed display. -/
theorem disconnected_line_only_resets_flag_witness :
    containsSub "disconnected"
        "HDMI-1 disconnected (normal left inverted right x axis y)" = true ∧
    parseStep ⟨[⟨"eDP-1", none, none, none, "abc"⟩], ["ff"], true, 1, true⟩
        "HDMI-1 disconnected (normal left inverted right x axis y)" =
      Except.ok ⟨[⟨"eDP-1", none, none, none, "abc"⟩], ["ff"], true, 1, false⟩ :=
  ⟨by decide,
   (disconnected_line_only_resets_flag
     ⟨[⟨"eDP-1", none, none, none, "abc"⟩], ["ff"], true, 1, true⟩
     "HDMI-1 disconnected (normal left inverted right x axis y)" (by decide)).1⟩

/-- Claim C8: loading the persisted configuration when the file does not exist
returns the explicit absence `None` (no exception is raised, and the read
performs no state change: the function is a pure read in this model). -/
theorem from_json_missing_file : JsonUtils.from_json none = Except.ok none := rfl

/-- Claim C5: INTERNAL_EXTEND policy.  Index 0 gets primary+auto; index 1 gets
auto positioned relative to display 0 in the given direction; an index above 1
gets the same relative positioning when `extend_all` is set and is powered off
otherwise. -/
theorem internal_extend_policy (displays : List Display) (extend_all : Bool)
    (direction : String) (idx : Nat) (d prev : Display)
    (h : displays.get? idx = some d) :
    (idx = 0 →
      (configureDirectives displays DisplayMode.INTERNAL_EXTEND extend_all direction).get? idx =
        some (" --output " ++ d.name ++ " --primary --auto")) ∧
    (displays.get? (idx - 1) = some prev →
      ((idx = 1 ∨ (1 < idx ∧ extend_all = true)) →
        (configureDirectives displays DisplayMode.INTERNAL_EXTEND extend_all direction).get? idx =
          some (" --output " ++ d.name ++ " --auto --" ++ direction ++ "-of " ++ prev.name)) ∧
      (1 < idx → extend_all = false →
        (configureDirectives displays DisplayMode.INTERNAL_EXTEND extend_all direction).get? idx =
          some (" --output " ++ d.name ++ " --off"))) := by
  have hg := configureDirectives_get? displays DisplayMode.INTERNAL_EXTEND extend_all direction idx
  rw [h] at hg
  refine ⟨?_, ?_⟩
  · rintro rfl
    rw [hg]
    simp [directiveFor, String.append_assoc]
  · intro hprev
    constructor
    · intro hcase
      have hge1 : 1 ≤ idx := by rcases hcase with h1 | ⟨h2, _⟩ <;> omega
      have hpn : pyName displays ((idx : Int) - 1) = prev.name :=
        pyName_of_get? displays idx prev hge1 hprev
      rw [hg]
      rcases hcase with rfl | ⟨hgt, hea⟩
      · norm_num at hpn
        simp [directiveFor, hpn, String.append_assoc]
      · have h0 : idx ≠ 0 := by omega
        have h1 : idx ≠ 1 := by omega
        subst hea
        simp [directiveFor, h0, h1, hpn, String.append_assoc]
    · intro hgt hea
      have h0 : idx ≠ 0 := by omega
      have h1 : idx ≠ 1 := by omega
      subst hea
      rw [hg]
      simp [directiveFor, h0, h1, String.append_assoc]

/-- Witness for C5: three displays, `extend_all = true`, direction right, at
index 2 (together with claim C5's concrete three-display example shape). -/
theorem internal_extend_policy_witness :
    ([⟨"eDP-1", none, none, none, ""⟩, ⟨"HDMI-1", none, none, none, ""⟩,
      ⟨"DP-3", none, none, none, ""⟩] : List Display).get? 2 =
        some ⟨"DP-3", none, none, none, ""⟩ ∧
    (configureDirectives
        [⟨"eDP-1", none, none, none, ""⟩, ⟨"HDMI-1", none, none, none, ""⟩,
         ⟨"DP-3", none, none, none, ""⟩]
        DisplayMode.INTERNAL_EXTEND true "right").get? 2 =
      some (" --output " ++ "DP-3" ++ " --auto --" ++ "right" ++ "-of " ++ "HDMI-1") :=
  ⟨by decide,
   ((internal_extend_policy
      [⟨"eDP-1", none, none, none, ""⟩, ⟨"HDMI-1", none, none, none, ""⟩,
       ⟨"DP-3", none, none, none, ""⟩] true "right" 2
      ⟨"DP-3", none, none, none, ""⟩ ⟨"HDMI-1", none, none, none, ""⟩
      (by decide)).2 (by decide)).1 (Or.inr ⟨by decide, rfl⟩)⟩

/-- Claim C3: display selection.  With no stored configuration the live list
is used; when every live EDID occurs among the stored EDIDs the stored order
is used with each stored display's name rewritten to the live name of the
first live display with the same EDID (kept unchanged when that EDID is not
live); otherwise the live list is used unchanged. -/
theorem matchedDisplays_get? (conf current : DisplayList) (j : Nat) (d : Display)
    (hj : conf.displays.get? j = some d) :
    (matchedDisplays conf current).get? j =
      some { d with name :=
        (((current.displays.filter fun x => x.edid == d.edid).map
          Display.name).head?).getD d.name } := by
  simp only [matchedDisplays, List.get?_map, hj, Option.map_some']

theorem matcher_policy (conf current : DisplayList) :
    chooseDisplays none current = current.displays ∧
    ((∀ e ∈ get_edids current.displays, e ∈ get_edids conf.displays) →
      (chooseDisplays (some conf) current).length = conf.displays.length ∧
      ∀ j d, conf.displays.get? j = some d →
        ∃ d', (chooseDisplays (some conf) current).get? j = some d' ∧
          d'.resolution = d.resolution ∧ d'.x_offset = d.x_offset ∧
          d'.y_offset = d.y_offset ∧ d'.edid = d.edid ∧
          (∀ c, (current.displays.filter fun x => x.edid == d.edid).head? = some c →
            d'.name = c.name) ∧
          ((current.displays.filter fun x => x.edid == d.edid) = [] →
            d'.name = d.name)) ∧
    ((¬ ∀ e ∈ get_edids current.displays, e ∈ get_edids conf.displays) →
      chooseDisplays (some conf) current = current.displays) := by
  refine ⟨rfl, ?_, ?_⟩
  · intro hsub
    have hc : ((get_edids current.displays).all
        fun e => (get_edids conf.displays).contains e) = true := by
      rw [List.all_eq_true]
      intro e he
      simpa using hsub e he
    have hch : chooseDisplays (some conf) current = matchedDisplays conf current := by
      show (if ((get_edids current.displays).all
          fun e => (get_edids conf.displays).contains e) = true then
        matchedDisplays conf current else current.displays) = matchedDisplays conf current
      rw [hc]
      simp
    rw [hch]
    constructor
    · simp [matchedDisplays]
    · intro j d hj
      refine ⟨_, matchedDisplays_get? conf current j d hj, rfl, rfl, rfl, rfl, ?_, ?_⟩
      · intro c hc2
        show (((current.displays.filter fun x => x.edid == d.edid).map
            Display.name).head?).getD d.name = c.name
        rw [List.head?_map, hc2]
        rfl
      · intro hnil
        show (((current.displays.filter fun x => x.edid == d.edid).map
            Display.name).head?).getD d.name = d.name
        rw [hnil]
        rfl
  · intro hns
    cases hb : ((get_edids current.displays).all
        fun e => (get_edids conf.displays).contains e) with
    | false =>
      show (if ((get_edids current.displays).all
          fun e => (get_edids conf.displays).contains e) = true then
        matchedDisplays conf current else current.displays) = current.displays
      rw [hb]
      simp
    | true =>
      exfalso
      apply hns
      intro e he
      have hcont := List.all_eq_true.mp hb e he
      simpa using hcont

/-- Witness for C3: stored EDIDs A, B, C and live EDIDs A, B (a strict subset)
under renamed live outputs, instantiating the subset branch. -/
theorem matcher_policy_witness :
    (∀ e ∈ get_edids (DisplayList.mk
        [⟨"HDMI-2", none, none, none, "A"⟩, ⟨"DP-1", none, none, none, "B"⟩]).displays,
      e ∈ get_edids (DisplayList.mk
        [⟨"eDP-1", none, none, none, "A"⟩, ⟨"HDMI-1", none, none, none, "B"⟩,
         ⟨"DP-2", none, none, none, "C"⟩]).displays) ∧
    (chooseDisplays
        (some (DisplayList.mk
          [⟨"eDP-1", none, none, none, "A"⟩, ⟨"HDMI-1", none, none, none, "B"⟩,
           ⟨"DP-2", none, none, none, "C"⟩]))
        (DisplayList.mk
          [⟨"HDMI-2", none, none, none, "A"⟩, ⟨"DP-1", none, none, none, "B"⟩])).length =
      (DisplayList.mk
        [⟨"eDP-1", none, none, none, "A"⟩, ⟨"HDMI-1", none, none, none, "B"⟩,
         ⟨"DP-2", none, none, none, "C"⟩]).displays.length :=
  ⟨by decide,
   ((matcher_policy
      (DisplayList.mk
        [⟨"eDP-1", none, none, none, "A"⟩, ⟨"HDMI-1", none, none, none, "B"⟩,
         ⟨"DP-2", none, none, none, "C"⟩])
      (DisplayList.mk
        [⟨"HDMI-2", none, none, none, "A"⟩, ⟨"DP-1", none, none, none, "B"⟩])).2.1
     (by decide)).1⟩

theorem display_round_trip (n : String) (r : String) (xo yo : Offset) (e : String) :
    Display.fromJson (Display.toJson ⟨n, some r, some xo, some yo, e⟩) =
      Except.ok ⟨n, some r, some xo, some yo, e⟩ := by
  cases xo
  cases yo
  rfl

theorem display_null_offset (n : String) (r : Option String) (yo : Option Offset)
    (e : String) :
    Display.fromJson (Display.toJson ⟨n, r, none, yo, e⟩) = Except.error "TypeError" := by
  rfl

theorem mapExcept_round_trip (l : List Display)
    (h : ∀ d ∈ l, d.resolution.isSome ∧ d.x_offset.isSome ∧ d.y_offset.isSome) :
    mapExcept Display.fromJson (l.map Display.toJson) = Except.ok l := by
  induction l with
  | nil => rfl
  | cons a t ih =>
    obtain ⟨h1, h2, h3⟩ := h a (List.mem_cons_self a t)
    have ha : Display.fromJson (Display.toJson a) = Except.ok a := by
      obtain ⟨n, rr, xx, yy, ee⟩ := a
      obtain ⟨r, hr⟩ := Option.isSome_iff_exists.mp h1
      obtain ⟨xo, hxo⟩ := Option.isSome_iff_exists.mp h2
      obtain ⟨yo, hyo⟩ := Option.isSome_iff_exists.mp h3
      simp only at hr hxo hyo
      subst hr; subst hxo; subst hyo
      exact display_round_trip n r xo yo ee
    simp [List.map, mapExcept, Except.map, ha,
      ih (fun d hd => h d (List.mem_cons_of_mem a hd))]

theorem mapExcept_error_of_none_offset (l : List Display) (d : Display)
    (hd : d ∈ l) (hx : d.x_offset = none) :
    ∃ e, mapExcept Display.fromJson (l.map Display.toJson) = Except.error e := by
  induction l with
  | nil => cases hd
  | cons a t ih =>
    rcases List.mem_cons.mp hd with rfl | hmem
    · refine ⟨"TypeError", ?_⟩
      have ha : Display.fromJson (Display.toJson d) = Except.error "TypeError" := by
        obtain ⟨n, rr, xx, yy, ee⟩ := d
        simp only at hx
        subst hx
        exact display_null_offset n rr yy ee
      simp [List.map, mapExcept, ha]
    · cases hfa : Display.fromJson (Display.toJson a) with
      | error e => exact ⟨e, by simp [List.map, mapExcept, hfa]⟩
      | ok b =>
        obtain ⟨e, he⟩ := ih hmem
        exact ⟨e, by simp [List.map, mapExcept, Except.map, hfa, he]⟩

/-- Claim C10: serializing a `DisplayList` whose displays all carry a present
resolution and present offsets and deserializing it yields an equal
`DisplayList`; and when some display's offsets are absent (serialized as
`null`), deserialization raises instead of restoring the inactive display. -/
theorem store_round_trip (dl : DisplayList) :
    ((∀ d ∈ dl.displays, d.resolution.isSome ∧ d.x_offset.isSome ∧ d.y_offset.isSome) →
      JsonUtils.from_json (some (JsonUtils.to_json dl)) = Except.ok (some dl)) ∧
    (∀ d ∈ dl.displays, d.x_offset = none →
      ∃ e, JsonUtils.from_json (some (JsonUtils.to_json dl)) = Except.error e) := by
  obtain ⟨l⟩ := dl
  constructor
  · intro h
    have hm := mapExcept_round_trip l h
    simp [JsonUtils.from_json, JsonUtils.to_json, DisplayList.fromJson, getKey,
      List.lookup, Except.map, hm]
  · intro d hd hx
    obtain ⟨e, he⟩ := mapExcept_error_of_none_offset l d hd hx
    exact ⟨e, by simp [JsonUtils.from_json, JsonUtils.to_json, DisplayList.fromJson,
      getKey, List.lookup, Except.map, he]⟩

/-- Witness for C10 with one concrete fully-active display. -/
theorem store_round_trip_witness :
    (∀ d ∈ (DisplayList.mk
        [⟨"eDP-1", some "1920x1080", some ⟨"+", "0"⟩, some ⟨"+", "0"⟩, "00ff"⟩]).displays,
      d.resolution.isSome ∧ d.x_offset.isSome ∧ d.y_offset.isSome) ∧
    JsonUtils.from_json (some (JsonUtils.to_json (DisplayList.mk
        [⟨"eDP-1", some "1920x1080", some ⟨"+", "0"⟩, some ⟨"+", "0"⟩, "00ff"⟩]))) =
      Except.ok (some (DisplayList.mk
        [⟨"eDP-1", some "1920x1080", some ⟨"+", "0"⟩, some ⟨"+", "0"⟩, "00ff"⟩])) :=
  ⟨by decide,
   (store_round_trip (DisplayList.mk
      [⟨"eDP-1", some "1920x1080", some ⟨"+", "0"⟩, some ⟨"+", "0"⟩, "00ff"⟩])).1
     (by decide)⟩

/-- Claim C9: each setup-wizard rejection rotates the candidate list by one
position (last element to the front); after N rotations (N = list length) the
original list returns, and the k-th candidate order is exactly the cyclic
rotation of the original by N - k positions, so the first N candidates are
exactly the N cyclic rotations. -/
theorem setup_rotation_cycles (l : List Display) (k : Nat) :
    (fun x => rotate x 1)^[l.length] l = l ∧
    (k < l.length →
      (fun x => rotate x 1)^[k] l = l.rotate ((l.length - k) % l.length)) := by
  constructor
  · rw [iterate_rotate_one, ← List.rotate_mod, Nat.mul_mod_left, List.rotate_zero]
  · intro hk
    have hmod : ((l.length - 1) * k) % l.length = (l.length - k) % l.length := by
      have hplus : l.length - 1 + 1 = l.length := by omega
      have h1 : (l.length - 1) * k + k = l.length * k := by
        calc (l.length - 1) * k + k = ((l.length - 1) + 1) * k := by ring
          _ = l.length * k := by rw [hplus]
      have h2 : l.length - k + k = l.length := by omega
      have e : (l.length - 1) * k + k ≡ (l.length - k) + k [MOD l.length] := by
        rw [h1, h2]
        show l.length * k % l.length = l.length % l.length
        rw [Nat.mul_mod_right, Nat.mod_self]
      exact Nat.ModEq.add_right_cancel' k e
    rw [iterate_rotate_one, ← List.rotate_mod, hmod, List.rotate_mod]

/-- Witness for C9 with three concrete displays and k = 2 rejections. -/
theorem setup_rotation_cycles_witness :
    (2 < ([⟨"A", none, none, none, "a"⟩, ⟨"B", none, none, none, "b"⟩,
           ⟨"C", none, none, none, "c"⟩] : List Display).length) ∧
    (fun x : List Display => rotate x 1)^[2]
        [⟨"A", none, none, none, "a"⟩, ⟨"B", none, none, none, "b"⟩,
         ⟨"C", none, none, none, "c"⟩] =
      ([⟨"A", none, none, none, "a"⟩, ⟨"B", none, none, none, "b"⟩,
        ⟨"C", none, none, none, "c"⟩] : List Display).rotate
        ((([⟨"A", none, none, none, "a"⟩, ⟨"B", none, none, none, "b"⟩,
            ⟨"C", none, none, none, "c"⟩] : List Display).length - 2) %
          ([⟨"A", none, none, none, "a"⟩, ⟨"B", none, none, none, "b"⟩,
            ⟨"C", none, none, none, "c"⟩] : List Display).length) :=
  ⟨by decide,
   (setup_rotation_cycles
     [⟨"A", none, none, none, "a"⟩, ⟨"B", none, none, none, "b"⟩,
      ⟨"C", none, none, none, "c"⟩] 2).2 (by decide)⟩

theorem except_bind_ok (x : α) (f : α → Except ε β) :
    (Except.ok x >>= f) = f x := rfl

theorem except_bind_error (e : ε) (f : α → Except ε β) :
    ((Except.error e : Except ε α) >>= f) = Except.error e := rfl

theorem indexOfSub_isSome_iff (sub : List Char) :
    ∀ t : List Char, (indexOfSub sub t).isSome = true ↔ sub <:+: t := by
  intro t
  induction t with
  | nil =>
    by_cases he : sub = []
    · subst he; simp [indexOfSub]
    · have hne : sub.isEmpty = false := by
        cases sub with
        | nil => exact absurd rfl he
        | cons a l => rfl
      simp [indexOfSub, hne]
      exact he
  | cons c t ih =>
    by_cases hp : sub.isPrefixOf (c :: t)
    · simp [indexOfSub, hp]
      exact (List.isPrefixOf_iff_prefix.mp hp).isInfix
    · simp only [indexOfSub]
      rw [if_neg (by simpa using hp), Option.isSome_map', ih, List.infix_cons_iff]
      constructor
      · exact Or.inr
      · rintro (h | h)
        · exact absurd h (fun hx => hp (List.isPrefixOf_iff_prefix.mpr h))
        · exact h

theorem containsSub_true_iff (sub s : String) :
    containsSub sub s = true ↔ sub.data <:+: s.data :=
  indexOfSub_isSome_iff sub.data s.data

theorem disconnected_contains_connected (l : String)
    (h : containsSub "disconnected" l = true) : containsSub "connected" l = true := by
  rw [containsSub_true_iff] at h ⊢
  have hsub : ("connected".data) <:+: ("disconnected".data) := by decide
  exact hsub.trans h

theorem not_disconnected_of_not_connected (l : String)
    (h : containsSub "connected" l = false) : containsSub "disconnected" l = false := by
  cases hd : containsSub "disconnected" l with
  | false => rfl
  | true => rw [disconnected_contains_connected l hd] at h; cases h

theorem runParseFrom_cons (s : ParseState) (l : String) (rest : List String) :
    runParseFrom s (l :: rest) =
      (parseStep s l >>= fun s' => runParseFrom s' rest) := rfl

theorem runParseFrom_append (s : ParseState) (xs ys : List String) :
    runParseFrom s (xs ++ ys) =
      (runParseFrom s xs >>= fun s' => runParseFrom s' ys) := by
  induction xs generalizing s with
  | nil =>
    show runParseFrom s ys = (Except.ok s >>= fun s' => runParseFrom s' ys)
    rw [except_bind_ok]
  | cons l t ih =>
    rw [List.cons_append, runParseFrom_cons, runParseFrom_cons]
    cases h : parseStep s l with
    | error e => rw [except_bind_error, except_bind_error, except_bind_error]
    | ok s' => rw [except_bind_ok, except_bind_ok, ih s']

theorem setLastEdid_append (xs : List Display) (d : Display) (e : String) :
    setLastEdid (xs ++ [d]) e = some (xs ++ [{ d with edid := e }]) := by
  induction xs with
  | nil => rfl
  | cons a t ih =>
    cases t with
    | nil => rfl
    | cons b t2 =>
      simp only [List.cons_append] at ih ⊢
      show (setLastEdid (b :: (t2 ++ [d])) e).map (a :: ·) = _
      rw [ih]
      rfl

theorem parseStep_connected (s : ParseState) (line : String) (d : Display)
    (h0 : containsSub "disconnected" line = false)
    (h1 : containsSub "connected" line = true)
    (h2 : parseDisplayLine line = some d) :
    parseStep s line = Except.ok { s with
      parsed_displays := s.parsed_displays ++ [d], last_connected := true } := by
  simp [parseStep, h0, h1, h2]

theorem parseStep_edid_marker (s : ParseState) (line : String) (c : Nat)
    (h1 : containsSub "connected" line = false)
    (h2 : indexOfSub "EDID".data line.data = some c)
    (hlc : s.last_connected = true) :
    parseStep s line =
      Except.ok
        { s with edid_buffer := [], attribute_indentation := c, collect_lines := true } := by
  have h0 := not_disconnected_of_not_connected line h1
  have hE : containsSub "EDID" line = true := by
    unfold containsSub
    rw [h2]
    rfl
  simp [parseStep, h0, h1, hlc, hE, h2]

theorem parseStep_collect (s : ParseState) (line : String)
    (h1 : containsSub "connected" line = false)
    (hE : containsSub "EDID" line = false)
    (hsp : line.data.head? ≠ some ' ')
    (htab : leadingTabs line.data ≠ s.attribute_indentation)
    (hc : s.collect_lines = true) :
    parseStep s line =
      Except.ok { s with edid_buffer := s.edid_buffer ++ [pyStrip line] } := by
  have h0 := not_disconnected_of_not_connected line h1
  have hne : ¬(s.attribute_indentation = leadingTabs line.data) := fun h => htab h.symm
  simp [parseStep, h0, h1, hE, hc, hsp, hne]

theorem parseStep_terminate (s : ParseState) (line : String) (ds : List Display)
    (h1 : containsSub "connected" line = false)
    (hE : containsSub "EDID" line = false)
    (hterm : line.data.head? = some ' ' ∨ leadingTabs line.data = s.attribute_indentation)
    (hc : s.collect_lines = true)
    (hset : setLastEdid s.parsed_displays (String.join s.edid_buffer) = some ds) :
    parseStep s line =
      Except.ok { s with collect_lines := false, parsed_displays := ds } := by
  have h0 := not_disconnected_of_not_connected line h1
  by_cases hsp : line.data.head? = some ' '
  · simp [parseStep, h0, h1, hE, hc, hsp, hset]
  · rcases hterm with hsp' | htab
    · exact absurd hsp' hsp
    · simp [parseStep, h0, h1, hE, hc, hsp, htab.symm, hset]

theorem runParseFrom_collect (c : Nat) (hexLines : List String)
    (hhex : ∀ l ∈ hexLines, containsSub "connected" l = false ∧
      containsSub "EDID" l = false ∧ l.data.head? ≠ some ' ' ∧ leadingTabs l.data ≠ c) :
    ∀ s : ParseState, s.collect_lines = true → s.attribute_indentation = c →
      runParseFrom s hexLines =
        Except.ok { s with edid_buffer := s.edid_buffer ++ hexLines.map pyStrip } := by
  induction hexLines with
  | nil =>
    intro s hc ha
    show Except.ok s = _
    simp
  | cons l t ih =>
    intro s hc ha
    obtain ⟨hl1, hl2, hl3, hl4⟩ := hhex l (List.mem_cons_self l t)
    have hstep := parseStep_collect s l hl1 hl2 hl3 (by rw [ha]; exact hl4) hc
    rw [runParseFrom_cons, hstep]
    simp only [except_bind_ok]
    rw [ih (fun x hx => hhex x (List.mem_cons_of_mem l hx))
      (ParseState.mk s.parsed_displays (s.edid_buffer ++ [pyStrip l]) s.collect_lines
        s.attribute_indentation s.last_connected) hc ha]
    simp [List.append_assoc]

/-- Claim C4 (amended): after a connected-display line and an EDID marker line
whose marker sits at column `c`, the loop collects the stripped content of
every subsequent line until the first line that either starts with a space or
whose leading-tab count equals `c` (the marker's column — not the hex lines'
own column); that line terminates collection and the most recent display's
`edid` becomes the exact in-order concatenation of the stripped collected
lines. -/
theorem edid_collection_amended (s : ParseState)
    (connLine markerLine termLine : String) (hexLines : List String)
    (d : Display) (c : Nat)
    (hc0 : containsSub "disconnected" connLine = false)
    (hc1 : containsSub "connected" connLine = true)
    (hc2 : parseDisplayLine connLine = some d)
    (hm1 : containsSub "connected" markerLine = false)
    (hm2 : indexOfSub "EDID".data markerLine.data = some c)
    (hhex : ∀ l ∈ hexLines, containsSub "connected" l = false ∧
      containsSub "EDID" l = false ∧ l.data.head? ≠ some ' ' ∧ leadingTabs l.data ≠ c)
    (ht1 : containsSub "connected" termLine = false)
    (ht2 : containsSub "EDID" termLine = false)
    (ht3 : termLine.data.head? = some ' ' ∨ leadingTabs termLine.data = c) :
    runParseFrom s ([connLine, markerLine] ++ hexLines ++ [termLine]) =
      Except.ok { s with
        parsed_displays := s.parsed_displays ++
          [{ d with edid := String.join (hexLines.map pyStrip) }],
        edid_buffer := hexLines.map pyStrip,
        collect_lines := false,
        attribute_indentation := c,
        last_connected := true } := by
  have h1 := parseStep_connected s connLine d hc0 hc1 hc2
  have h2 := parseStep_edid_marker
    (ParseState.mk (s.parsed_displays ++ [d]) s.edid_buffer s.collect_lines
      s.attribute_indentation true)
    markerLine c hm1 hm2 rfl
  have h3 := runParseFrom_collect c hexLines hhex
    (ParseState.mk (s.parsed_displays ++ [d]) [] true c true) rfl rfl
  have h4 := parseStep_terminate
    (ParseState.mk (s.parsed_displays ++ [d]) ([] ++ hexLines.map pyStrip) true c true)
    termLine
    (s.parsed_displays ++ [{ d with edid := String.join (hexLines.map pyStrip) }])
    ht1 ht2 ht3 rfl
    (by
      show setLastEdid (s.parsed_displays ++ [d])
        (String.join ([] ++ hexLines.map pyStrip)) = _
      rw [List.nil_append]
      exact setLastEdid_append _ _ _)
  simp only [List.cons_append, List.nil_append]
  rw [runParseFrom_cons, h1]
  simp only [except_bind_ok]
  rw [runParseFrom_cons, h2]
  simp only [except_bind_ok]
  rw [runParseFrom_append, h3]
  simp only [except_bind_ok]
  rw [runParseFrom_cons, h4]
  simp only [except_bind_ok]
  rfl

/-- Claim C4 counterexample.  The EDID block's hex lines sit at tab column 2
(the claim's column c); the following line `"\t\t\tdeadbeef"` has indentation
3 ≠ 2, so by the claim collection should terminate there and the edid should
be `"00ffffffffffff00"`.  The code keeps collecting (it terminates only at a
line whose indentation equals the marker's column 1) and produces
`"00ffffffffffff00deadbeef"`. -/
theorem edid_termination_counterexample :
    runParseFrom initState
      ["eDP-1 connected primary 1920x1080+0+0 (normal left inverted right x axis y) 310mm x 170mm",
       "\tEDID:", "\t\t00ffffffffffff00", "\t\t\tdeadbeef", "\tnext:"] =
      Except.ok ⟨[⟨"eDP-1", some "1920x1080", some ⟨"+", "0"⟩, some ⟨"+", "0"⟩,
        "00ffffffffffff00deadbeef"⟩], ["00ffffffffffff00", "deadbeef"], false, 1, true⟩ ∧
    "00ffffffffffff00deadbeef" ≠ "00ffffffffffff00" :=
  ⟨rfl, by decide⟩

/-- Witness for C4's amended theorem: a two-line EDID block at tab column 2
under a marker at column 1, terminated by a column-1 attribute line. -/
theorem edid_collection_amended_witness :
    runParseFrom initState
        (["HDMI-1 connected (normal left inverted right x axis y)", "\tEDID:"] ++
          ["\t\t00ffffffffffff00433aff", "\t\t1d2e3f"] ++ ["\tTimings:"]) =
      Except.ok ⟨[⟨"HDMI-1", none, none, none, "00ffffffffffff00433aff1d2e3f"⟩],
        ["00ffffffffffff00433aff", "1d2e3f"], false, 1, true⟩ :=
  edid_collection_amended initState
    "HDMI-1 connected (normal left inverted right x axis y)" "\tEDID:" "\tTimings:"
    ["\t\t00ffffffffffff00433aff", "\t\t1d2e3f"]
    ⟨"HDMI-1", none, none, none, ""⟩ 1
    (by decide) (by decide) (by decide) (by decide) (by decide)
    (by decide) (by decide) (by decide) (by decide)

theorem string_data_append (a b : String) : (a ++ b).data = a.data ++ b.data := rfl

theorem string_mk_data (s : String) : String.mk s.data = s := rfl

theorem token_split (p : Char → Bool) : ∀ (w rest : List Char),
    (∀ c ∈ w, p c = true) → (∀ c, rest.head? = some c → p c = false) →
    (w ++ rest).takeWhile p = w ∧ (w ++ rest).dropWhile p = rest := by
  intro w
  induction w with
  | nil =>
    intro rest _ hrest
    cases rest with
    | nil => exact ⟨rfl, rfl⟩
    | cons r t =>
      have hr := hrest r rfl
      exact ⟨by simp [List.takeWhile_cons, hr], by simp [List.dropWhile_cons, hr]⟩
  | cons a t ih =>
    intro rest hw hrest
    have ha := hw a (List.mem_cons_self a t)
    obtain ⟨h1, h2⟩ := ih rest (fun c hc => hw c (List.mem_cons_of_mem a hc)) hrest
    exact ⟨by simp [List.takeWhile_cons, ha, h1], by simp [List.dropWhile_cons, ha, h2]⟩

theorem skipWs_id_of_head (l : List Char)
    (h : ∀ c, l.head? = some c → isPyWs c = false) : skipWs l = l := by
  cases l with
  | nil => rfl
  | cons a t => exact List.dropWhile_cons_of_neg (by simp [h a rfl])

theorem skipWs_cons_ws (a : Char) (l : List Char) (ha : isPyWs a = true) :
    skipWs (a :: l) = skipWs l :=
  List.dropWhile_cons_of_pos (by simp [ha])

theorem isPyWs_cases (c : Char) (h : isPyWs c = true) :
    c = ' ' ∨ c = '\t' ∨ c = '\n' ∨ c = '\r' ∨ c = '\x0B' ∨ c = '\x0C' := by
  simpa [isPyWs, Bool.or_eq_true, or_assoc] using h

theorem isTextChar_not_ws (c : Char) (h : isTextChar c = true) : isPyWs c = false := by
  cases hw : isPyWs c with
  | false => rfl
  | true =>
    exfalso
    rcases isPyWs_cases c hw with rfl | rfl | rfl | rfl | rfl | rfl <;>
      exact absurd h (by decide)

theorem isDigit_not_ws (c : Char) (h : c.isDigit = true) : isPyWs c = false := by
  cases hw : isPyWs c with
  | false => rfl
  | true =>
    exfalso
    rcases isPyWs_cases c hw with rfl | rfl | rfl | rfl | rfl | rfl <;>
      exact absurd h (by decide)

theorem isDigit_text (c : Char) (h : c.isDigit = true) : isTextChar c = true := by
  simp [isTextChar, h]

theorem sign_not_digit (d : Char) (h : d = '+' ∨ d = '-') : d.isDigit = false := by
  rcases h with rfl | rfl <;> decide

theorem sign_not_ws (d : Char) (h : d = '+' ∨ d = '-') : isPyWs d = false := by
  rcases h with rfl | rfl <;> decide

theorem head_cons_prop (p : Char → Bool) (a : Char) (t : List Char) (ha : p a = false) :
    ∀ c, (a :: t).head? = some c → p c = false := by
  intro c hc
  have hac : a = c := by simpa using hc
  rwa [← hac]

theorem head_not_ws_of_all (p : Char → Bool) (hp : ∀ c, p c = true → isPyWs c = false)
    (w rest : List Char) (hne : w ≠ []) (hall : ∀ c ∈ w, p c = true) :
    ∀ c, (w ++ rest).head? = some c → isPyWs c = false := by
  cases w with
  | nil => exact absurd rfl hne
  | cons a t =>
    intro c hc
    have hac : a = c := by simpa using hc
    rw [← hac]
    exact hp a (hall a (List.mem_cons_self a t))

theorem isEmpty_false_of_ne_nil (l : List Char) (h : l ≠ []) : l.isEmpty = false := by
  cases l with
  | nil => exact absurd rfl h
  | cons a t => rfl

theorem orientWord_props (w : List Char) (h : orientWord w = true) :
    w ≠ [] ∧ ∀ c ∈ w, isTextChar c = true := by
  have hcases : w = "normal".data ∨ w = "left".data ∨ w = "inverted".data ∨
      w = "right".data ∨ w = "x".data ∨ w = "axis".data ∨ w = "y".data := by
    simpa [orientWord, Bool.or_eq_true, or_assoc] using h
  rcases hcases with rfl | rfl | rfl | rfl | rfl | rfl | rfl <;>
    exact ⟨by decide, by decide⟩

theorem sepSpace_data_cons (w : String) (b : String) (t : List String) :
    (sepSpace (w :: b :: t)).data = w.data ++ ' ' :: (sepSpace (b :: t)).data := by
  show (w ++ " " ++ sepSpace (b :: t)).data = _
  rw [string_data_append, string_data_append, List.append_assoc]
  rfl

theorem parseOffsetTok_render (dirc : Char) (off : String) (rest : List Char)
    (hdir : dirc = '+' ∨ dirc = '-')
    (hne : off.data ≠ []) (hdig : ∀ c ∈ off.data, c.isDigit = true)
    (hrest : ∀ c, rest.head? = some c → c.isDigit = false) :
    parseOffsetTok (dirc :: (off.data ++ rest)) =
      some (⟨String.mk [dirc], off⟩, rest) := by
  have hws : isPyWs dirc = false := sign_not_ws dirc hdir
  have hskip1 : skipWs (dirc :: (off.data ++ rest)) = dirc :: (off.data ++ rest) :=
    skipWs_id_of_head _ (head_cons_prop isPyWs dirc _ hws)
  have hskip2 : skipWs (off.data ++ rest) = off.data ++ rest :=
    skipWs_id_of_head _ (head_not_ws_of_all Char.isDigit isDigit_not_ws off.data rest hne hdig)
  obtain ⟨ht, hd⟩ := token_split Char.isDigit off.data rest hdig hrest
  have hemp : off.data.isEmpty = false := isEmpty_false_of_ne_nil _ hne
  have hcond : (dirc == '+' || dirc == '-') = true := by
    rcases hdir with rfl | rfl <;> decide
  simp [parseOffsetTok, hskip1, hcond, hskip2, ht, hd, hemp, string_mk_data]

theorem parseRes_skip (cs : List Char) (hc : (skipWs cs).head? = some '(') :
    parseRes cs = some (none, cs) := by
  simp [parseRes, hc]

theorem parseRes_body (cs : List Char) (w hh : String) (d1 d2 : Char)
    (off1 off2 : String) (rest : List Char)
    (hskip1 : skipWs cs = w.data ++ 'x' ::
      (hh.data ++ d1 :: (off1.data ++ d2 :: (off2.data ++ rest))))
    (hwne : w.data ≠ []) (hwd : ∀ c ∈ w.data, c.isDigit = true)
    (hhne : hh.data ≠ []) (hhd : ∀ c ∈ hh.data, c.isDigit = true)
    (hd1 : d1 = '+' ∨ d1 = '-') (hd2 : d2 = '+' ∨ d2 = '-')
    (ho1ne : off1.data ≠ []) (ho1d : ∀ c ∈ off1.data, c.isDigit = true)
    (ho2ne : off2.data ≠ []) (ho2d : ∀ c ∈ off2.data, c.isDigit = true)
    (hrest : ∀ c, rest.head? = some c → c.isDigit = false) :
    parseRes cs =
      some (some (w ++ "x" ++ hh, ⟨String.mk [d1], off1⟩, ⟨String.mk [d2], off2⟩),
        rest) := by
  obtain ⟨w0, wt, hw0⟩ := List.exists_cons_of_ne_nil hwne
  have hw0d : w0.isDigit = true := hwd w0 (by rw [hw0]; exact List.mem_cons_self _ _)
  have hhead : (w.data ++ 'x' ::
      (hh.data ++ d1 :: (off1.data ++ d2 :: (off2.data ++ rest)))).head? = some w0 := by
    rw [hw0]; rfl
  obtain ⟨htw, hdw⟩ := token_split Char.isDigit w.data
    ('x' :: (hh.data ++ d1 :: (off1.data ++ d2 :: (off2.data ++ rest)))) hwd
    (head_cons_prop _ 'x' _ (by decide))
  have hskipx : skipWs ('x' :: (hh.data ++ d1 :: (off1.data ++ d2 ::
      (off2.data ++ rest)))) = 'x' :: (hh.data ++ d1 :: (off1.data ++ d2 ::
      (off2.data ++ rest))) :=
    skipWs_id_of_head _ (head_cons_prop isPyWs 'x' _ (by decide))
  have hskiph : skipWs (hh.data ++ d1 :: (off1.data ++ d2 :: (off2.data ++ rest))) =
      hh.data ++ d1 :: (off1.data ++ d2 :: (off2.data ++ rest)) :=
    skipWs_id_of_head _
      (head_not_ws_of_all Char.isDigit isDigit_not_ws hh.data _ hhne hhd)
  obtain ⟨hth, hdh⟩ := token_split Char.isDigit hh.data
    (d1 :: (off1.data ++ d2 :: (off2.data ++ rest))) hhd
    (head_cons_prop _ d1 _ (sign_not_digit d1 hd1))
  have hemph : hh.data.isEmpty = false := isEmpty_false_of_ne_nil _ hhne
  have hoff1 := parseOffsetTok_render d1 off1 (d2 :: (off2.data ++ rest)) hd1 ho1ne ho1d
    (head_cons_prop _ d2 _ (sign_not_digit d2 hd2))
  have hoff2 := parseOffsetTok_render d2 off2 rest hd2 ho2ne ho2d hrest
  simp [parseRes, hskip1, hhead, hw0d, htw, hdw, hskipx, hskiph, hth, hdh, hemph,
    hoff1, hoff2, string_mk_data]

theorem parseOrientWords_cons_ws (g : Nat) (a : Char) (x : List Char) (seen : Bool)
    (ha : isPyWs a = true) :
    parseOrientWords (g + 1) (a :: x) seen = parseOrientWords (g + 1) x seen := by
  simp only [parseOrientWords]
  rw [skipWs_cons_ws a x ha]

theorem parseOrientWords_step (g : Nat) (cs : List Char) (seen : Bool)
    (w rest' : List Char)
    (hskip : skipWs cs = w ++ rest')
    (hnotp : ¬((w ++ rest').head? = some ')'))
    (htw : (w ++ rest').takeWhile isTextChar = w)
    (hdw : (w ++ rest').dropWhile isTextChar = rest')
    (hemp : w.isEmpty = false)
    (hw : orientWord w = true) :
    parseOrientWords (g + 1) cs seen = parseOrientWords g rest' true := by
  simp only [parseOrientWords]
  rw [hskip, if_neg hnotp, htw, hdw, if_neg (by simp [hemp]), if_pos hw]

theorem parseOrientWords_close (g : Nat) (cs rest : List Char)
    (hskip : skipWs cs = ')' :: rest) :
    parseOrientWords (g + 1) cs true = some rest := by
  simp only [parseOrientWords]
  rw [hskip]
  simp

theorem parseOrientWords_render : ∀ (ws : List String) (rest : List Char)
    (fuel : Nat) (seen : Bool),
    (∀ w ∈ ws, orientWord w.data = true) →
    (sepSpace ws).data.length + 1 ≤ fuel →
    ws ≠ [] →
    parseOrientWords fuel ((sepSpace ws).data ++ ')' :: rest) seen = some rest := by
  intro ws
  induction ws with
  | nil => intro rest fuel seen _ _ h; exact absurd rfl h
  | cons w t ih =>
    intro rest fuel seen hall hfuel _
    have hw := hall w (List.mem_cons_self w t)
    obtain ⟨hwne, hwtext⟩ := orientWord_props w.data hw
    obtain ⟨w0, wt, hw0⟩ := List.exists_cons_of_ne_nil hwne
    have hw0t : isTextChar w0 = true :=
      hwtext w0 (by rw [hw0]; exact List.mem_cons_self _ _)
    have hwlen : 0 < w.data.length := List.length_pos.mpr hwne
    cases t with
    | nil =>
      have hsep : sepSpace [w] = w := rfl
      rw [hsep] at hfuel ⊢
      obtain ⟨f, rfl⟩ : ∃ f, fuel = f + 1 := ⟨fuel - 1, by omega⟩
      have hf1 : 1 ≤ f := by omega
      obtain ⟨g, rfl⟩ : ∃ g, f = g + 1 := ⟨f - 1, by omega⟩
      have hskip : skipWs (w.data ++ ')' :: rest) = w.data ++ ')' :: rest :=
        skipWs_id_of_head _
          (head_not_ws_of_all isTextChar isTextChar_not_ws _ _ hwne hwtext)
      have hnotp : ¬((w.data ++ ')' :: rest).head? = some ')') := by
        rw [hw0]
        intro hcontra
        have hx : w0 = ')' := by simpa using hcontra
        rw [hx] at hw0t
        exact absurd hw0t (by decide)
      obtain ⟨htw, hdw⟩ := token_split isTextChar w.data (')' :: rest) hwtext
        (head_cons_prop _ ')' _ (by decide))
      have hemp := isEmpty_false_of_ne_nil _ hwne
      rw [parseOrientWords_step (g + 1) _ seen w.data (')' :: rest) hskip hnotp htw
        hdw hemp hw]
      exact parseOrientWords_close g _ rest
        (skipWs_id_of_head _ (head_cons_prop isPyWs ')' _ (by decide)))
    | cons b t2 =>
      rw [sepSpace_data_cons w b t2] at hfuel ⊢
      simp only [List.length_append, List.length_cons] at hfuel
      obtain ⟨f, rfl⟩ : ∃ f, fuel = f + 1 := ⟨fuel - 1, by omega⟩
      have hf1 : 1 ≤ f := by omega
      obtain ⟨g, rfl⟩ : ∃ g, f = g + 1 := ⟨f - 1, by omega⟩
      simp only [List.append_assoc, List.cons_append]
      have hskip : skipWs (w.data ++ ' ' :: ((sepSpace (b :: t2)).data ++ ')' :: rest)) =
          w.data ++ ' ' :: ((sepSpace (b :: t2)).data ++ ')' :: rest) :=
        skipWs_id_of_head _
          (head_not_ws_of_all isTextChar isTextChar_not_ws _ _ hwne hwtext)
      have hnotp : ¬((w.data ++ ' ' ::
          ((sepSpace (b :: t2)).data ++ ')' :: rest)).head? = some ')') := by
        rw [hw0]
        intro hcontra
        have hx : w0 = ')' := by simpa using hcontra
        rw [hx] at hw0t
        exact absurd hw0t (by decide)
      obtain ⟨htw, hdw⟩ := token_split isTextChar w.data
        (' ' :: ((sepSpace (b :: t2)).data ++ ')' :: rest)) hwtext
        (head_cons_prop _ ' ' _ (by decide))
      have hemp := isEmpty_false_of_ne_nil _ hwne
      rw [parseOrientWords_step (g + 1) _ seen w.data
        (' ' :: ((sepSpace (b :: t2)).data ++ ')' :: rest)) hskip hnotp htw hdw
        hemp hw]
      rw [parseOrientWords_cons_ws g ' ' _ true (by decide)]
      exact ih rest (g + 1) true (fun x hx => hall x (List.mem_cons_of_mem _ hx))
        (by omega) (by simp)

theorem parseSize_nil : parseSize [] = some [] := rfl

theorem parseSize_render (a b : String)
    (hane : a.data ≠ []) (had : ∀ c ∈ a.data, c.isDigit = true)
    (hbne : b.data ≠ []) (hbd : ∀ c ∈ b.data, c.isDigit = true) :
    parseSize (' ' :: (a.data ++ 'm' :: 'm' :: ' ' :: 'x' :: ' ' ::
        (b.data ++ ['m', 'm']))) = some [] := by
  obtain ⟨a0, at0, ha0⟩ := List.exists_cons_of_ne_nil hane
  have ha0d : a0.isDigit = true := had a0 (by rw [ha0]; exact List.mem_cons_self _ _)
  have hskip1 : skipWs (' ' :: (a.data ++ 'm' :: 'm' :: ' ' :: 'x' :: ' ' ::
      (b.data ++ ['m', 'm']))) =
      a.data ++ 'm' :: 'm' :: ' ' :: 'x' :: ' ' :: (b.data ++ ['m', 'm']) := by
    rw [skipWs_cons_ws ' ' _ (by decide)]
    exact skipWs_id_of_head _
      (head_not_ws_of_all Char.isDigit isDigit_not_ws a.data _ hane had)
  have hhead : (a.data ++ 'm' :: 'm' :: ' ' :: 'x' :: ' ' ::
      (b.data ++ ['m', 'm'])).head? = some a0 := by
    rw [ha0]; rfl
  obtain ⟨hta, hda⟩ := token_split Char.isDigit a.data
    ('m' :: 'm' :: ' ' :: 'x' :: ' ' :: (b.data ++ ['m', 'm'])) had
    (head_cons_prop _ 'm' _ (by decide))
  have hskipm : skipWs ('m' :: 'm' :: ' ' :: 'x' :: ' ' :: (b.data ++ ['m', 'm'])) =
      'm' :: 'm' :: ' ' :: 'x' :: ' ' :: (b.data ++ ['m', 'm']) :=
    skipWs_id_of_head _ (head_cons_prop isPyWs 'm' _ (by decide))
  have hskipxs : skipWs (' ' :: 'x' :: ' ' :: (b.data ++ ['m', 'm'])) =
      'x' :: ' ' :: (b.data ++ ['m', 'm']) := by
    rw [skipWs_cons_ws ' ' _ (by decide)]
    exact skipWs_id_of_head _ (head_cons_prop isPyWs 'x' _ (by decide))
  have hskipb : skipWs (' ' :: (b.data ++ ['m', 'm'])) = b.data ++ ['m', 'm'] := by
    rw [skipWs_cons_ws ' ' _ (by decide)]
    exact skipWs_id_of_head _
      (head_not_ws_of_all Char.isDigit isDigit_not_ws b.data _ hbne hbd)
  obtain ⟨htb, hdb⟩ := token_split Char.isDigit b.data ['m', 'm'] hbd
    (head_cons_prop _ 'm' _ (by decide))
  have hskipmm : skipWs ['m', 'm'] = ['m', 'm'] :=
    skipWs_id_of_head _ (head_cons_prop isPyWs 'm' _ (by decide))
  have hempb : b.data.isEmpty = false := isEmpty_false_of_ne_nil _ hbne
  simp [parseSize, hskip1, hhead, ha0d, hta, hda, hskipm, hskipxs, hskipb, htb, hdb,
    hskipmm, hempb]


theorem sign_exists (dir : String) (h : dir = "+" ∨ dir = "-") :
    ∃ d : Char, dir.data = [d] ∧ (d = '+' ∨ d = '-') := by
  rcases h with rfl | rfl
  · exact ⟨'+', rfl, Or.inl rfl⟩
  · exact ⟨'-', rfl, Or.inr rfl⟩

theorem parseSize_sizeChars (size : Option (String × String))
    (hsize : ∀ a b, size = some (a, b) →
      (a.data ≠ [] ∧ ∀ c ∈ a.data, c.isDigit = true) ∧
      (b.data ≠ [] ∧ ∀ c ∈ b.data, c.isDigit = true)) :
    parseSize (sizeChars size) = some [] := by
  cases size with
  | none => exact parseSize_nil
  | some ab =>
    obtain ⟨a, b⟩ := ab
    obtain ⟨⟨h1, h2⟩, h3, h4⟩ := hsize a b rfl
    exact parseSize_render a b h1 h2 h3 h4

theorem skipWs_id_head_eq (l : List Char) (a : Char) (hhead : l.head? = some a)
    (ha : isPyWs a = false) : skipWs l = l := by
  apply skipWs_id_of_head
  intro c hc
  rw [hhead] at hc
  have hac : a = c := by simpa using hc
  rwa [← hac]

theorem takeWhile_head (p : Char → Bool) (a : Char) (l : List Char)
    (hhead : l.head? = some a) (ha : p a = true) :
    (l.takeWhile p).head? = some a := by
  cases l with
  | nil => cases hhead
  | cons b t =>
    have hab : b = a := by simpa using hhead
    subst hab
    simp [List.takeWhile_cons, ha]

theorem render_data_none (name : String) (primary : Bool) (orient : List String)
    (size : Option (String × String)) :
    (renderConnectedLine name primary none orient size).data =
      name.data ++ ' ' :: ("connected".data ++
        ((if primary then ' ' :: "primary".data else []) ++
        (' ' :: '(' :: ((sepSpace orient).data ++ ')' :: sizeChars size)))) := by
  have e1 : (" connected" : String).data = ' ' :: "connected".data := rfl
  have e2 : ((if primary then " primary" else "" : String)).data =
      if primary then ' ' :: "primary".data else [] := by cases primary <;> rfl
  have e3 : (" (" : String).data = [' ', '('] := rfl
  have e4 : (")" : String).data = [')'] := rfl
  cases size with
  | none =>
    simp [renderConnectedLine, sizeChars, string_data_append, e1, e2, e3, e4,
      List.append_assoc]
  | some ab =>
    obtain ⟨a, b⟩ := ab
    have e5 : (" " : String).data = [' '] := rfl
    have e6 : ("mm x " : String).data = ['m', 'm', ' ', 'x', ' '] := rfl
    have e7 : ("mm" : String).data = ['m', 'm'] := rfl
    simp [renderConnectedLine, sizeChars, string_data_append, e1, e2, e3, e4, e5, e6,
      e7, List.append_assoc]

theorem render_data_res (name : String) (primary : Bool)
    (w hh dir1 off1 dir2 off2 : String) (orient : List String)
    (size : Option (String × String)) :
    (renderConnectedLine name primary (some (w, hh, ⟨dir1, off1⟩, ⟨dir2, off2⟩))
        orient size).data =
      name.data ++ ' ' :: ("connected".data ++
        ((if primary then ' ' :: "primary".data else []) ++
        (' ' :: (w.data ++ 'x' :: (hh.data ++ (dir1.data ++ (off1.data ++
          (dir2.data ++ (off2.data ++ (' ' :: '(' ::
            ((sepSpace orient).data ++ ')' :: sizeChars size))))))))))) := by
  have e1 : (" connected" : String).data = ' ' :: "connected".data := rfl
  have e2 : ((if primary then " primary" else "" : String)).data =
      if primary then ' ' :: "primary".data else [] := by cases primary <;> rfl
  have e3 : (" (" : String).data = [' ', '('] := rfl
  have e4 : (")" : String).data = [')'] := rfl
  have e5 : (" " : String).data = [' '] := rfl
  have e8 : ("x" : String).data = ['x'] := rfl
  cases size with
  | none =>
    simp [renderConnectedLine, sizeChars, string_data_append, e1, e2, e3, e4, e5, e8,
      List.append_assoc]
  | some ab =>
    obtain ⟨a, b⟩ := ab
    have e6 : ("mm x " : String).data = ['m', 'm', ' ', 'x', ' '] := rfl
    have e7 : ("mm" : String).data = ['m', 'm'] := rfl
    simp [renderConnectedLine, sizeChars, string_data_append, e1, e2, e3, e4, e5, e6,
      e7, e8, List.append_assoc]


/-- Claim C7: every connected-display line of the expected single-line grammar
(rendered from its components: TEXT output name, optional `primary`, optional
resolution/offset block, orientation keywords, optional screen size) parses
back losslessly to the `(name, resolution, offsets)` tuple: the resulting
`Display` carries exactly the rendered name, the `WxH` resolution string and
the two signed offsets (or all-absent for an inactive display). -/
theorem connected_line_round_trip (name : String) (primary : Bool)
    (resOff : Option (String × String × Offset × Offset)) (orient : List String)
    (size : Option (String × String))
    (hname : name.data ≠ [] ∧ ∀ c ∈ name.data, isTextChar c = true)
    (hres : ∀ w h o1 o2, resOff = some (w, h, o1, o2) →
      (w.data ≠ [] ∧ ∀ c ∈ w.data, c.isDigit = true) ∧
      (h.data ≠ [] ∧ ∀ c ∈ h.data, c.isDigit = true) ∧
      (o1.direction = "+" ∨ o1.direction = "-") ∧
      (o1.offset.data ≠ [] ∧ ∀ c ∈ o1.offset.data, c.isDigit = true) ∧
      (o2.direction = "+" ∨ o2.direction = "-") ∧
      (o2.offset.data ≠ [] ∧ ∀ c ∈ o2.offset.data, c.isDigit = true))
    (horient : orient ≠ [] ∧ ∀ w ∈ orient, orientWord w.data = true)
    (hsize : ∀ a b, size = some (a, b) →
      (a.data ≠ [] ∧ ∀ c ∈ a.data, c.isDigit = true) ∧
      (b.data ≠ [] ∧ ∀ c ∈ b.data, c.isDigit = true)) :
    parseDisplayLine (renderConnectedLine name primary resOff orient size) =
      some ⟨name, resOff.map (fun r => r.1 ++ "x" ++ r.2.1),
        resOff.map (fun r => r.2.2.1), resOff.map (fun r => r.2.2.2), ""⟩ := by
  obtain ⟨hnne, hntext⟩ := hname
  obtain ⟨horne, horall⟩ := horient
  have hps : parseSize (sizeChars size) = some [] := parseSize_sizeChars size hsize
  have hor : parseOrientWords
      (((sepSpace orient).data ++ ')' :: sizeChars size).length + 1)
      ((sepSpace orient).data ++ ')' :: sizeChars size) false =
      some (sizeChars size) := by
    apply parseOrientWords_render orient (sizeChars size) _ false horall ?_ horne
    simp [List.length_append]
  have hE : skipWs ([] : List Char) = [] := rfl
  simp only [parseDisplayLine]
  cases resOff with
  | none =>
    rw [render_data_none]
    cases primary with
    | false =>
      have hA : skipWs (name.data ++ (' ' :: ('c' :: ('o' :: ('n' :: ('n' :: ('e' :: ('c' :: ('t' :: ('e' :: ('d' :: (' ' :: (('(' :: ((sepSpace orient).data ++ (')' :: sizeChars size)))))))))))))))) =
          name.data ++ (' ' :: ('c' :: ('o' :: ('n' :: ('n' :: ('e' :: ('c' :: ('t' :: ('e' :: ('d' :: (' ' :: (('(' :: ((sepSpace orient).data ++ (')' :: sizeChars size))))))))))))))) :=
        skipWs_id_of_head _
          (head_not_ws_of_all isTextChar isTextChar_not_ws _ _ hnne hntext)
      obtain ⟨htn, hdn⟩ := token_split isTextChar name.data
        (' ' :: ('c' :: ('o' :: ('n' :: ('n' :: ('e' :: ('c' :: ('t' :: ('e' :: ('d' :: (' ' :: (('(' :: ((sepSpace orient).data ++ (')' :: sizeChars size))))))))))))))) hntext (head_cons_prop _ ' ' _ (by decide))
      have hempN : name.data.isEmpty = false := isEmpty_false_of_ne_nil _ hnne
      have hB : skipWs (' ' :: ('c' :: ('o' :: ('n' :: ('n' :: ('e' :: ('c' :: ('t' :: ('e' :: ('d' :: (' ' :: (('(' :: ((sepSpace orient).data ++ (')' :: sizeChars size))))))))))))))) = 'c' :: ('o' :: ('n' :: ('n' :: ('e' :: ('c' :: ('t' :: ('e' :: ('d' :: (' ' :: (('(' :: ((sepSpace orient).data ++ (')' :: sizeChars size))))))))))))) := by
        rw [skipWs_cons_ws ' ' _ (by decide)]
        exact skipWs_id_head_eq _ 'c' rfl (by decide)
      have hC : skipWs (' ' :: ('(' :: ((sepSpace orient).data ++ (')' :: sizeChars size)))) = ('(' :: ((sepSpace orient).data ++ (')' :: sizeChars size))) := by
        rw [skipWs_cons_ws ' ' _ (by decide)]
        exact skipWs_id_head_eq _ '(' rfl (by decide)
      have hD : skipWs ('(' :: ((sepSpace orient).data ++ (')' :: sizeChars size))) = ('(' :: ((sepSpace orient).data ++ (')' :: sizeChars size))) :=
        skipWs_id_head_eq _ '(' rfl (by decide)
      have hpr : parseRes ('(' :: ((sepSpace orient).data ++ (')' :: sizeChars size))) = some (none, ('(' :: ((sepSpace orient).data ++ (')' :: sizeChars size)))) :=
        parseRes_skip _ (by rw [hD]; rfl)
      simp at hor
      simp [parseLineChars, List.takeWhile_cons, List.dropWhile_cons, isTextChar,
        hA, htn, hdn, hempN, hB, hC, hD, hE, hpr, hor, hps, string_mk_data]
    | true =>
      have hA : skipWs (name.data ++ (' ' :: ('c' :: ('o' :: ('n' :: ('n' :: ('e' :: ('c' :: ('t' :: ('e' :: ('d' :: (' ' :: ('p' :: ('r' :: ('i' :: ('m' :: ('a' :: ('r' :: ('y' :: (' ' :: (('(' :: ((sepSpace orient).data ++ (')' :: sizeChars size)))))))))))))))))))))))) =
          name.data ++ (' ' :: ('c' :: ('o' :: ('n' :: ('n' :: ('e' :: ('c' :: ('t' :: ('e' :: ('d' :: (' ' :: ('p' :: ('r' :: ('i' :: ('m' :: ('a' :: ('r' :: ('y' :: (' ' :: (('(' :: ((sepSpace orient).data ++ (')' :: sizeChars size))))))))))))))))))))))) :=
        skipWs_id_of_head _
          (head_not_ws_of_all isTextChar isTextChar_not_ws _ _ hnne hntext)
      obtain ⟨htn, hdn⟩ := token_split isTextChar name.data
        (' ' :: ('c' :: ('o' :: ('n' :: ('n' :: ('e' :: ('c' :: ('t' :: ('e' :: ('d' :: (' ' :: ('p' :: ('r' :: ('i' :: ('m' :: ('a' :: ('r' :: ('y' :: (' ' :: (('(' :: ((sepSpace orient).data ++ (')' :: sizeChars size))))))))))))))))))))))) hntext (head_cons_prop _ ' ' _ (by decide))
      have hempN : name.data.isEmpty = false := isEmpty_false_of_ne_nil _ hnne
      have hB : skipWs (' ' :: ('c' :: ('o' :: ('n' :: ('n' :: ('e' :: ('c' :: ('t' :: ('e' :: ('d' :: (' ' :: ('p' :: ('r' :: ('i' :: ('m' :: ('a' :: ('r' :: ('y' :: (' ' :: (('(' :: ((sepSpace orient).data ++ (')' :: sizeChars size))))))))))))))))))))))) = 'c' :: ('o' :: ('n' :: ('n' :: ('e' :: ('c' :: ('t' :: ('e' :: ('d' :: (' ' :: ('p' :: ('r' :: ('i' :: ('m' :: ('a' :: ('r' :: ('y' :: (' ' :: (('(' :: ((sepSpace orient).data ++ (')' :: sizeChars size))))))))))))))))))))) := by
        rw [skipWs_cons_ws ' ' _ (by decide)]
        exact skipWs_id_head_eq _ 'c' rfl (by decide)
      have hC : skipWs (' ' :: ('p' :: ('r' :: ('i' :: ('m' :: ('a' :: ('r' :: ('y' :: (' ' :: (('(' :: ((sepSpace orient).data ++ (')' :: sizeChars size))))))))))))) = 'p' :: ('r' :: ('i' :: ('m' :: ('a' :: ('r' :: ('y' :: (' ' :: (('(' :: ((sepSpace orient).data ++ (')' :: sizeChars size))))))))))) := by
        rw [skipWs_cons_ws ' ' _ (by decide)]
        exact skipWs_id_head_eq _ 'p' rfl (by decide)
      have hD : skipWs (' ' :: ('(' :: ((sepSpace orient).data ++ (')' :: sizeChars size)))) = ('(' :: ((sepSpace orient).data ++ (')' :: sizeChars size))) := by
        rw [skipWs_cons_ws ' ' _ (by decide)]
        exact skipWs_id_head_eq _ '(' rfl (by decide)
      have hpr : parseRes (' ' :: ('(' :: ((sepSpace orient).data ++ (')' :: sizeChars size)))) = some (none, ' ' :: ('(' :: ((sepSpace orient).data ++ (')' :: sizeChars size)))) :=
        parseRes_skip _ (by rw [hD]; rfl)
      simp at hor
      simp [parseLineChars, List.takeWhile_cons, List.dropWhile_cons, isTextChar,
        hA, htn, hdn, hempN, hB, hC, hD, hE, hpr, hor, hps, string_mk_data]
  | some r =>
    obtain ⟨w, r2⟩ := r
    obtain ⟨hh, r3⟩ := r2
    obtain ⟨o1, o2⟩ := r3
    obtain ⟨⟨hwne, hwd⟩, ⟨hhne, hhd⟩, ho1dir, ⟨ho1ne, ho1dig⟩, ho2dir, ⟨ho2ne, ho2dig⟩⟩ :=
      hres w hh o1 o2 rfl
    obtain ⟨dir1, o1off⟩ := o1
    obtain ⟨dir2, o2off⟩ := o2
    replace ho1dir : dir1 = "+" ∨ dir1 = "-" := ho1dir
    replace ho2dir : dir2 = "+" ∨ dir2 = "-" := ho2dir
    replace ho1ne : o1off.data ≠ [] := ho1ne
    replace ho1dig : ∀ c ∈ o1off.data, c.isDigit = true := ho1dig
    replace ho2ne : o2off.data ≠ [] := ho2ne
    replace ho2dig : ∀ c ∈ o2off.data, c.isDigit = true := ho2dig
    obtain ⟨d1c, hdir1, hd1c⟩ := sign_exists dir1 ho1dir
    obtain ⟨d2c, hdir2, hd2c⟩ := sign_exists dir2 ho2dir
    obtain ⟨w0, wt, hw0⟩ := List.exists_cons_of_ne_nil hwne
    have hw0d : w0.isDigit = true := hwd w0 (by rw [hw0]; exact List.mem_cons_self _ _)
    have hmk1 : String.mk [d1c] = dir1 := by rw [← hdir1]
    have hmk2 : String.mk [d2c] = dir2 := by rw [← hdir2]
    rw [render_data_res name primary w hh dir1 o1off dir2 o2off orient size, hdir1, hdir2]
    cases primary with
    | false =>
      have hA : skipWs (name.data ++ (' ' :: ('c' :: ('o' :: ('n' :: ('n' :: ('e' :: ('c' :: ('t' :: ('e' :: ('d' :: (' ' :: ((w.data ++ ('x' :: (hh.data ++ (d1c :: (o1off.data ++ (d2c :: (o2off.data ++ (' ' :: ('(' :: ((sepSpace orient).data ++ (')' :: sizeChars size)))))))))))))))))))))))) =
          name.data ++ (' ' :: ('c' :: ('o' :: ('n' :: ('n' :: ('e' :: ('c' :: ('t' :: ('e' :: ('d' :: (' ' :: ((w.data ++ ('x' :: (hh.data ++ (d1c :: (o1off.data ++ (d2c :: (o2off.data ++ (' ' :: ('(' :: ((sepSpace orient).data ++ (')' :: sizeChars size))))))))))))))))))))))) :=
        skipWs_id_of_head _
          (head_not_ws_of_all isTextChar isTextChar_not_ws _ _ hnne hntext)
      obtain ⟨htn, hdn⟩ := token_split isTextChar name.data
        (' ' :: ('c' :: ('o' :: ('n' :: ('n' :: ('e' :: ('c' :: ('t' :: ('e' :: ('d' :: (' ' :: ((w.data ++ ('x' :: (hh.data ++ (d1c :: (o1off.data ++ (d2c :: (o2off.data ++ (' ' :: ('(' :: ((sepSpace orient).data ++ (')' :: sizeChars size))))))))))))))))))))))) hntext (head_cons_prop _ ' ' _ (by decide))
      have hempN : name.data.isEmpty = false := isEmpty_false_of_ne_nil _ hnne
      have hB : skipWs (' ' :: ('c' :: ('o' :: ('n' :: ('n' :: ('e' :: ('c' :: ('t' :: ('e' :: ('d' :: (' ' :: ((w.data ++ ('x' :: (hh.data ++ (d1c :: (o1off.data ++ (d2c :: (o2off.data ++ (' ' :: ('(' :: ((sepSpace orient).data ++ (')' :: sizeChars size))))))))))))))))))))))) = 'c' :: ('o' :: ('n' :: ('n' :: ('e' :: ('c' :: ('t' :: ('e' :: ('d' :: (' ' :: ((w.data ++ ('x' :: (hh.data ++ (d1c :: (o1off.data ++ (d2c :: (o2off.data ++ (' ' :: ('(' :: ((sepSpace orient).data ++ (')' :: sizeChars size))))))))))))))))))))) := by
        rw [skipWs_cons_ws ' ' _ (by decide)]
        exact skipWs_id_head_eq _ 'c' rfl (by decide)
      have hC : skipWs (' ' :: (w.data ++ ('x' :: (hh.data ++ (d1c :: (o1off.data ++ (d2c :: (o2off.data ++ (' ' :: ('(' :: ((sepSpace orient).data ++ (')' :: sizeChars size)))))))))))) = (w.data ++ ('x' :: (hh.data ++ (d1c :: (o1off.data ++ (d2c :: (o2off.data ++ (' ' :: ('(' :: ((sepSpace orient).data ++ (')' :: sizeChars size))))))))))) := by
        rw [skipWs_cons_ws ' ' _ (by decide)]
        exact skipWs_id_of_head _
          (head_not_ws_of_all Char.isDigit isDigit_not_ws w.data _ hwne hwd)
      have hneq : ¬(List.takeWhile isTextChar (w.data ++ ('x' :: (hh.data ++ (d1c :: (o1off.data ++ (d2c :: (o2off.data ++ (' ' :: ('(' :: ((sepSpace orient).data ++ (')' :: sizeChars size))))))))))) = ['p', 'r', 'i', 'm', 'a', 'r', 'y']) := by
        intro heq
        have hh1 : (List.takeWhile isTextChar (w.data ++ ('x' :: (hh.data ++ (d1c :: (o1off.data ++ (d2c :: (o2off.data ++ (' ' :: ('(' :: ((sepSpace orient).data ++ (')' :: sizeChars size)))))))))))).head? = some w0 :=
          takeWhile_head isTextChar w0 _ (by rw [hw0]; rfl) (isDigit_text w0 hw0d)
        rw [heq] at hh1
        have hpw : 'p' = w0 := by simpa using hh1
        rw [← hpw] at hw0d
        exact absurd hw0d (by decide)
      have hbodyskip : skipWs (w.data ++ ('x' :: (hh.data ++ (d1c :: (o1off.data ++ (d2c :: (o2off.data ++ (' ' :: ('(' :: ((sepSpace orient).data ++ (')' :: sizeChars size))))))))))) = (w.data ++ ('x' :: (hh.data ++ (d1c :: (o1off.data ++ (d2c :: (o2off.data ++ (' ' :: ('(' :: ((sepSpace orient).data ++ (')' :: sizeChars size))))))))))) :=
        skipWs_id_of_head _
          (head_not_ws_of_all Char.isDigit isDigit_not_ws w.data _ hwne hwd)
      have hpr : parseRes (w.data ++ ('x' :: (hh.data ++ (d1c :: (o1off.data ++ (d2c :: (o2off.data ++ (' ' :: ('(' :: ((sepSpace orient).data ++ (')' :: sizeChars size))))))))))) =
          some (some (w ++ "x" ++ hh, ⟨String.mk [d1c], o1off⟩, ⟨String.mk [d2c], o2off⟩),
            ' ' :: ('(' :: ((sepSpace orient).data ++ (')' :: sizeChars size)))) :=
        parseRes_body _ w hh d1c d2c o1off o2off (' ' :: ('(' :: ((sepSpace orient).data ++ (')' :: sizeChars size)))) hbodyskip hwne hwd
          hhne hhd hd1c hd2c ho1ne ho1dig ho2ne ho2dig
          (head_cons_prop _ ' ' _ (by decide))
      have hD : skipWs (' ' :: ('(' :: ((sepSpace orient).data ++ (')' :: sizeChars size)))) = ('(' :: ((sepSpace orient).data ++ (')' :: sizeChars size))) := by
        rw [skipWs_cons_ws ' ' _ (by decide)]
        exact skipWs_id_head_eq _ '(' rfl (by decide)
      simp at hor
      simp [parseLineChars, List.takeWhile_cons, List.dropWhile_cons, isTextChar,
        hA, htn, hdn, hempN, hB, hC, hneq, hmk1, hmk2, hD, hE, hpr, hor, hps, string_mk_data]
    | true =>
      have hA : skipWs (name.data ++ (' ' :: ('c' :: ('o' :: ('n' :: ('n' :: ('e' :: ('c' :: ('t' :: ('e' :: ('d' :: (' ' :: ('p' :: ('r' :: ('i' :: ('m' :: ('a' :: ('r' :: ('y' :: (' ' :: ((w.data ++ ('x' :: (hh.data ++ (d1c :: (o1off.data ++ (d2c :: (o2off.data ++ (' ' :: ('(' :: ((sepSpace orient).data ++ (')' :: sizeChars size)))))))))))))))))))))))))))))))) =
          name.data ++ (' ' :: ('c' :: ('o' :: ('n' :: ('n' :: ('e' :: ('c' :: ('t' :: ('e' :: ('d' :: (' ' :: ('p' :: ('r' :: ('i' :: ('m' :: ('a' :: ('r' :: ('y' :: (' ' :: ((w.data ++ ('x' :: (hh.data ++ (d1c :: (o1off.data ++ (d2c :: (o2off.data ++ (' ' :: ('(' :: ((sepSpace orient).data ++ (')' :: sizeChars size))))))))))))))))))))))))))))))) :=
        skipWs_id_of_head _
          (head_not_ws_of_all isTextChar isTextChar_not_ws _ _ hnne hntext)
      obtain ⟨htn, hdn⟩ := token_split isTextChar name.data
        (' ' :: ('c' :: ('o' :: ('n' :: ('n' :: ('e' :: ('c' :: ('t' :: ('e' :: ('d' :: (' ' :: ('p' :: ('r' :: ('i' :: ('m' :: ('a' :: ('r' :: ('y' :: (' ' :: ((w.data ++ ('x' :: (hh.data ++ (d1c :: (o1off.data ++ (d2c :: (o2off.data ++ (' ' :: ('(' :: ((sepSpace orient).data ++ (')' :: sizeChars size))))))))))))))))))))))))))))))) hntext (head_cons_prop _ ' ' _ (by decide))
      have hempN : name.data.isEmpty = false := isEmpty_false_of_ne_nil _ hnne
      have hB : skipWs (' ' :: ('c' :: ('o' :: ('n' :: ('n' :: ('e' :: ('c' :: ('t' :: ('e' :: ('d' :: (' ' :: ('p' :: ('r' :: ('i' :: ('m' :: ('a' :: ('r' :: ('y' :: (' ' :: ((w.data ++ ('x' :: (hh.data ++ (d1c :: (o1off.data ++ (d2c :: (o2off.data ++ (' ' :: ('(' :: ((sepSpace orient).data ++ (')' :: sizeChars size))))))))))))))))))))))))))))))) = 'c' :: ('o' :: ('n' :: ('n' :: ('e' :: ('c' :: ('t' :: ('e' :: ('d' :: (' ' :: ('p' :: ('r' :: ('i' :: ('m' :: ('a' :: ('r' :: ('y' :: (' ' :: ((w.data ++ ('x' :: (hh.data ++ (d1c :: (o1off.data ++ (d2c :: (o2off.data ++ (' ' :: ('(' :: ((sepSpace orient).data ++ (')' :: sizeChars size))))))))))))))))))))))))))))) := by
        rw [skipWs_cons_ws ' ' _ (by decide)]
        exact skipWs_id_head_eq _ 'c' rfl (by decide)
      have hC : skipWs (' ' :: ('p' :: ('r' :: ('i' :: ('m' :: ('a' :: ('r' :: ('y' :: (' ' :: ((w.data ++ ('x' :: (hh.data ++ (d1c :: (o1off.data ++ (d2c :: (o2off.data ++ (' ' :: ('(' :: ((sepSpace orient).data ++ (')' :: sizeChars size))))))))))))))))))))) = 'p' :: ('r' :: ('i' :: ('m' :: ('a' :: ('r' :: ('y' :: (' ' :: ((w.data ++ ('x' :: (hh.data ++ (d1c :: (o1off.data ++ (d2c :: (o2off.data ++ (' ' :: ('(' :: ((sepSpace orient).data ++ (')' :: sizeChars size))))))))))))))))))) := by
        rw [skipWs_cons_ws ' ' _ (by decide)]
        exact skipWs_id_head_eq _ 'p' rfl (by decide)
      have hspbody : skipWs (' ' :: (w.data ++ ('x' :: (hh.data ++ (d1c :: (o1off.data ++ (d2c :: (o2off.data ++ (' ' :: ('(' :: ((sepSpace orient).data ++ (')' :: sizeChars size)))))))))))) = (w.data ++ ('x' :: (hh.data ++ (d1c :: (o1off.data ++ (d2c :: (o2off.data ++ (' ' :: ('(' :: ((sepSpace orient).data ++ (')' :: sizeChars size))))))))))) := by
        rw [skipWs_cons_ws ' ' _ (by decide)]
        exact skipWs_id_of_head _
          (head_not_ws_of_all Char.isDigit isDigit_not_ws w.data _ hwne hwd)
      have hpr : parseRes (' ' :: (w.data ++ ('x' :: (hh.data ++ (d1c :: (o1off.data ++ (d2c :: (o2off.data ++ (' ' :: ('(' :: ((sepSpace orient).data ++ (')' :: sizeChars size)))))))))))) =
          some (some (w ++ "x" ++ hh, ⟨String.mk [d1c], o1off⟩, ⟨String.mk [d2c], o2off⟩),
            ' ' :: ('(' :: ((sepSpace orient).data ++ (')' :: sizeChars size)))) :=
        parseRes_body _ w hh d1c d2c o1off o2off (' ' :: ('(' :: ((sepSpace orient).data ++ (')' :: sizeChars size)))) hspbody hwne hwd
          hhne hhd hd1c hd2c ho1ne ho1dig ho2ne ho2dig
          (head_cons_prop _ ' ' _ (by decide))
      have hD : skipWs (' ' :: ('(' :: ((sepSpace orient).data ++ (')' :: sizeChars size)))) = ('(' :: ((sepSpace orient).data ++ (')' :: sizeChars size))) := by
        rw [skipWs_cons_ws ' ' _ (by decide)]
        exact skipWs_id_head_eq _ '(' rfl (by decide)
      simp at hor
      simp [parseLineChars, List.takeWhile_cons, List.dropWhile_cons, isTextChar,
        hA, htn, hdn, hempN, hB, hC, hmk1, hmk2, hD, hE, hpr, hor, hps, string_mk_data]

/-- Witness for C7 at the spec's example line. -/
theorem connected_line_round_trip_witness :
    renderConnectedLine "eDP-1" true (some ("1920", "1080", ⟨"+", "0"⟩, ⟨"+", "0"⟩))
        ["normal", "left", "inverted", "right", "x", "axis", "y"]
        (some ("310", "170")) =
      "eDP-1 connected primary 1920x1080+0+0 (normal left inverted right x axis y) 310mm x 170mm" ∧
    parseDisplayLine
        "eDP-1 connected primary 1920x1080+0+0 (normal left inverted right x axis y) 310mm x 170mm" =
      some ⟨"eDP-1", some "1920x1080", some ⟨"+", "0"⟩, some ⟨"+", "0"⟩, ""⟩ := by
  constructor
  · rfl
  · exact connected_line_round_trip "eDP-1" true
      (some ("1920", "1080", ⟨"+", "0"⟩, ⟨"+", "0"⟩))
      ["normal", "left", "inverted", "right", "x", "axis", "y"] (some ("310", "170"))
      (by decide)
      (by intro w h o1 o2 heq; cases heq; decide)
      (by decide)
      (by intro a b heq; cases heq; decide)
